import Mathlib

/-!
# A verification development for the `sqlh` package

Shallow embedding of `builder.go` (the fragment builders `SQL`, `In` and
`DebugSQL`) and of `scanner.go` (the row iteration helpers `Iter`, `ScanV`,
`Scan` and `Pluck`), followed by theorems about them.

Conventions of the embedding.

* A Go `string` is a sequence of bytes.  A byte is represented by a `Char`
  (every byte value is a `Char`), so a string is a `List Char`; the marker is
  the byte `'?'`.
* A Go `any` argument is either a value whose dynamic type is `Expr` or some
  other value.  `Any α` has one constructor for each; `α` is the type of the
  values that are not an `Expr`.
* An out-of-range slice expression panics in Go.  Functions that slice return
  an `Option`, and `none` stands for the panic.
* `strings.Builder.Grow` and the capacity given to `make` only reserve memory;
  they have no effect on the value built and are left out.
* A cursor is a state machine: each method of `Rows` is a function from the
  state before the call to its result and the state after it.  A callback is
  such a function too; a callback that panics is not modelled.
* The loop of `Iter` need not end, so `Iter` takes a bound `fuel` on the
  number of rounds and returns `none` when the bound is reached.
* `errors.Join` and `fmt.Errorf` are the functions of the Go standard library;
  the error values they build are the constructors of `GoError`.  `fmt.Errorf`
  prints its `%w` operand as `fmt` prints any value: through the `Format`
  method of an error that implements `fmt.Formatter`, through `Error`
  otherwise (`GoError.Format`).
* What `DebugSQL` takes from outside the package is a parameter of its
  embedding: the path and the line of the caller, and `strings.TrimSpace`.
* `Scan` returns references.  A reference is an address in a memory that is
  part of the state (`Mem`); each variable `v` of a callback is a new cell of
  that memory, and a scan function is given the address of its target.
-/

namespace Sqlh

/-! ## builder.go -/

/-- A Go string: its bytes in order. -/
abbrev GoString := List Char

/-- A value of Go type `any`.  `expr Statement Args` is a value of dynamic type
`Expr` with these two fields, `lit v` is any other value. -/
inductive Any (α : Type) where
  | lit (v : α) : Any α
  | expr (Statement : GoString) (Args : List (Any α)) : Any α

/-- The Go struct `Expr`. -/
structure Expr (α : Type) where
  Statement : GoString
  Args : List (Any α)

/-- An `Expr` stored in an `any`. -/
def Expr.toAny {α : Type} (e : Expr α) : Any α :=
  Any.expr e.Statement e.Args

/-- Go's `strings.IndexByte(s, c)`: the index of the first `c` in `s`, or `-1`
when `c` does not occur. -/
def IndexByte : GoString → Char → Int
  | [], _ => -1
  | b :: bs, c =>
    if b = c then 0
    else
      let i := IndexByte bs c
      if i < 0 then -1 else i + 1

/-- The Go slice expression `s[lo:hi]` on a string; `none` is the run-time
panic for `lo < 0`, `hi < lo` or `len(s) < hi`. -/
def slice (s : GoString) (lo hi : Int) : Option GoString :=
  if 0 ≤ lo ∧ lo ≤ hi ∧ hi ≤ (s.length : Int) then
    some ((s.drop lo.toNat).take (hi - lo).toNat)
  else none

/-- The Go slice expression `s[lo:]`. -/
def sliceFrom (s : GoString) (lo : Int) : Option GoString :=
  slice s lo s.length

/-- The loop `for i := 0; i < len(args); i += 1` of `SQL`, run on the arguments
that remain.  The state is the local `end`, the contents of the builder `b`
and `expr.Args`. -/
def SQL.loop {α : Type} (stmt : GoString) :
    List (Any α) → Int → GoString → List (Any α) →
      Option (Int × GoString × List (Any α))
  | [], end_, b, exprArgs => some (end_, b, exprArgs)
  | arg :: rest, end_, b, exprArgs =>
    match sliceFrom stmt end_ with
    | none => none
    | some tail =>
      let idx := IndexByte tail '?'
      let start := end_
      let end_ := end_ + idx + 1
      match arg with
      | Any.expr subStatement subArgs =>
        match slice stmt start (end_ - 1) with
        | none => none
        | some piece =>
          SQL.loop stmt rest end_ (b ++ piece ++ subStatement) (exprArgs ++ subArgs)
      | Any.lit v =>
        match slice stmt start end_ with
        | none => none
        | some piece =>
          SQL.loop stmt rest end_ (b ++ piece) (exprArgs ++ [Any.lit v])

/-- The Go function `SQL(stmt string, args ...any) Expr`. -/
def SQL {α : Type} (stmt : GoString) (args : List (Any α)) : Option (Expr α) :=
  if args.length = 0 then
    some { Statement := stmt, Args := [] }
  else
    match SQL.loop stmt args 0 [] [] with
    | none => none
    | some (end_, b, exprArgs) =>
      match sliceFrom stmt end_ with
      | none => none
      | some tail => some { Statement := b ++ tail, Args := exprArgs }

/-- The loop `for _, item := range items[1:]` of `In`, run on the items
that remain: `b` is the contents of the builder, `args` the slice `args`. -/
def In.loop {α : Type} : List (Any α) → GoString → List (Any α) → GoString × List (Any α)
  | [], b, args => (b, args)
  | item :: rest, b, args => In.loop rest (b ++ [',', ' ', '?']) (args ++ [item])

/-- The Go function `In(items S) Expr`.  The items are given as the values of
type `any` that they become when they are handed to `SQL`. -/
def In {α : Type} (items : List (Any α)) : Option (Expr α) :=
  match items with
  | [] => some { Statement := [], Args := [] }
  | [i0] => SQL ['?'] [i0]
  | [i0, i1] => SQL ['?', ',', ' ', '?'] [i0, i1]
  | [i0, i1, i2] => SQL ['?', ',', ' ', '?', ',', ' ', '?'] [i0, i1, i2]
  | i0 :: i1 :: i2 :: i3 :: rest =>
    match In.loop (i1 :: i2 :: i3 :: rest) ['?'] [i0] with
    | (b, args) => SQL b args

/-- Go's `strings.Contains(s, substr)` for a `substr` of the one byte `c`. -/
def strings.Contains (s : GoString) (c : Char) : Bool :=
  s.contains c

/-- Go's `strings.Split(s, sep)` for a `sep` of the one byte `c`: the texts
between the occurrences of `c`, one more than there are occurrences. -/
def strings.Split : GoString → Char → List GoString
  | [], _ => [[]]
  | b :: bs, c =>
    if b = c then [] :: strings.Split bs c
    else
      match strings.Split bs c with
      | [] => [[b]]
      | x :: xs => (b :: x) :: xs

/-- Go's `strings.Join(elems, sep)`. -/
def strings.Join : List GoString → GoString → GoString
  | [], _ => []
  | [x], _ => x
  | x :: y :: rest, sep => x ++ sep ++ strings.Join (y :: rest) sep

/-- The Go function `indent`.  `TrimSpace` is `strings.TrimSpace` of the Go
standard library. -/
def indent (TrimSpace : GoString → GoString) (v : GoString) : GoString :=
  if !strings.Contains v '\n' then v
  else
    ['\n', '\t'] ++ strings.Join (strings.Split (TrimSpace v) '\n') ['\n', '\t'] ++ ['\n']

/-- The text that the verb `%d` of `fmt.Sprintf` gives for an `int`. -/
def formatInt (n : Int) : GoString :=
  (toString n).toList

/-- The Go function `DebugSQL(stmt string, args ...any) Expr`.  `line` is the
line that `runtime.Caller(1)` returns and `path` is the text that
`ignoreError(filepath.Rel(moduleRoot(), file))` returns for its file; both come
from outside the package.  The function also stores the arguments with the
indented statements back into the slice of its caller, which is not part of
the value returned. -/
def DebugSQL {α : Type} (TrimSpace : GoString → GoString) (path : GoString) (line : Int)
    (stmt : GoString) (args : List (Any α)) : Option (Expr α) :=
  let args := args.map fun arg =>
    match arg with
    | Any.expr subStatement subArgs => Any.expr (indent TrimSpace subStatement) subArgs
    | Any.lit v => Any.lit v
  if path ≠ [] then
    SQL (['\n', '/', '*', ' '] ++ path ++ [':'] ++ formatInt line ++ [' ', '*', '/', ' '] ++ stmt)
      args
  else
    SQL stmt args

/-! ## scanner.go -/

/-- A Go `error` value that is not nil.  `base id msg` is an error of some
other package, with an identity and the text its `Error` method returns;
`formatter id msg formatted` is such an error that also implements
`fmt.Formatter`, `formatted` being what its `Format` method writes for the
verb `%v`; `wrapError msg err` is the value `fmt.Errorf` builds for a format
with one `%w` verb; `joinError errs` is the value `errors.Join` builds. -/
inductive GoError where
  | base (id : Nat) (msg : String) : GoError
  | formatter (id : Nat) (msg : String) (formatted : String) : GoError
  | wrapError (msg : String) (err : GoError) : GoError
  | joinError (errs : List GoError) : GoError

/-- A Go `error`: `none` is nil. -/
abbrev error := Option GoError

mutual
/-- The method `Error() string` of an error value. -/
def GoError.Error : GoError → String
  | GoError.base _ msg => msg
  | GoError.formatter _ msg _ => msg
  | GoError.wrapError msg _ => msg
  | GoError.joinError errs => GoError.joinText errs
/-- The text of a `joinError`: the texts of its members, one per line. -/
def GoError.joinText : List GoError → String
  | [] => ""
  | [e] => e.Error
  | e :: e2 :: es => e.Error ++ "\n" ++ GoError.joinText (e2 :: es)
end

mutual
/-- The error `target` is in the tree of `err`: `err` is `target`, or `target`
is in the tree of the error that `err` wraps (`Unwrap() error`), or in the tree
of one of the errors it joins (`Unwrap() []error`).  This is the traversal of
`errors.Is` on values compared by content. -/
def GoError.Contains (target : GoError) : GoError → Prop
  | GoError.base id msg => GoError.base id msg = target
  | GoError.formatter id msg formatted => GoError.formatter id msg formatted = target
  | GoError.wrapError msg err =>
    GoError.wrapError msg err = target ∨ GoError.Contains target err
  | GoError.joinError errs =>
    GoError.joinError errs = target ∨ GoError.ContainsAny target errs
/-- The error `target` is in the tree of one of the listed errors. -/
def GoError.ContainsAny (target : GoError) : List GoError → Prop
  | [] => False
  | e :: es => GoError.Contains target e ∨ GoError.ContainsAny target es
end

/-- What `fmt` prints for an error under the verb `%v`, which is how it
treats `%w`: the output of the `Format` method of an error that implements
`fmt.Formatter`, and the text of the `Error` method of any other error (the
values `wrapError` and `joinError` have no `Format` method). -/
def GoError.Format : GoError → String
  | GoError.formatter _ _ formatted => formatted
  | GoError.base id msg => (GoError.base id msg).Error
  | GoError.wrapError msg err => (GoError.wrapError msg err).Error
  | GoError.joinError errs => (GoError.joinError errs).Error

/-- The call `fmt.Errorf(format ++ "%w", err)` for a non-nil `err` and a
format text `format` without verbs: the message is the format text followed
by what `fmt` prints for `err`, and the result unwraps to `err`. -/
def Errorf (format : String) (err : GoError) : GoError :=
  GoError.wrapError (format ++ err.Format) err

/-- Go's `errors.Join(errs...)`: nil when every value is nil, otherwise a
`joinError` of the values that are not nil, in order. -/
def Join (errs : List error) : error :=
  let kept := errs.filterMap id
  if kept.length = 0 then none else some (GoError.joinError kept)

/-- The interface `Row`: its one method `Scan`, here for a single target of
type `V`.  `Scan v s` is the call `Scan(&v)` in cursor state `s`; it returns
the error, the value the target holds afterwards and the next state. -/
structure Row (σ V : Type) where
  Scan : V → σ → (error × V) × σ

/-- The interface `Rows` over a state `σ`: each method returns its result and
the state after the call. -/
structure Rows (σ V : Type) extends Row σ V where
  Close : σ → error × σ
  Next : σ → Bool × σ
  Err : σ → error × σ

/-- The body of `Iter` up to its `return`: the `for rows.Next()` loop and the
final `return rows.Err()`.  The result is the value given to `return` and the
state reached; `none` means that `fuel` iterations did not end the loop. -/
def Iter.loop {σ V : Type} (rows : Rows σ V) (fn : σ → error × σ) :
    Nat → σ → Option (error × σ)
  | 0, _ => none
  | fuel + 1, s =>
    match rows.Next s with
    | (true, s1) =>
      match rows.Err s1 with
      | (some err, s2) => some (some err, s2)
      | (none, s2) =>
        match fn s2 with
        | (some err, s3) => some (some (Errorf "failed to scan rows: " err), s3)
        | (none, s3) => Iter.loop rows fn fuel s3
    | (false, s1) => some (rows.Err s1)

/-- The Go function `Iter(rows Rows, fn func() error) (err error)`.  The
deferred function runs after the body has set the result `err`: it calls
`rows.Close()` and replaces `err` by `errors.Join(err, closeErr)`. -/
def Iter {σ V : Type} (rows : Rows σ V) (fn : σ → error × σ) (fuel : Nat) (s : σ) :
    Option (error × σ) :=
  match Iter.loop rows fn fuel s with
  | none => none
  | some (err, s1) =>
    match rows.Close s1 with
    | (closeErr, s2) => some (Join [err, closeErr], s2)

/-- The cursor `rows` seen from inside `ScanV`: the state is the cursor state
together with the variable `out` that the callback of `ScanV` captures; the
methods of the cursor leave `out` alone. -/
def Rows.withOut {σ V : Type} (rows : Rows σ V) : Rows (σ × List V) V where
  Scan := fun v s => match rows.Scan v s.1 with
    | (r, s1) => (r, (s1, s.2))
  Close := fun s => match rows.Close s.1 with
    | (r, s1) => (r, (s1, s.2))
  Next := fun s => match rows.Next s.1 with
    | (r, s1) => (r, (s1, s.2))
  Err := fun s => match rows.Err s.1 with
    | (r, s1) => (r, (s1, s.2))

/-- The function literal that `ScanV` hands to `Iter`: a fresh `v` (the zero
value `zero`), the call `scan(&v, rows)`, and `out = append(out, v)` when it
returned nil. -/
def ScanV.fn {σ V : Type} (zero : V) (rows : Rows σ V)
    (scan : V → Row σ V → σ → (error × V) × σ) : σ × List V → error × (σ × List V) :=
  fun s =>
    match scan zero rows.toRow s.1 with
    | ((none, v), s1) => (none, (s1, s.2 ++ [v]))
    | ((some err, _), s1) => (some err, (s1, s.2))

/-- The Go function `ScanV(rows, scan) (out []V, err error)`; `zero` is the
zero value of `V`. -/
def ScanV {σ V : Type} (zero : V) (rows : Rows σ V)
    (scan : V → Row σ V → σ → (error × V) × σ) (fuel : Nat) (s : σ) :
    Option ((List V × error) × σ) :=
  match Iter rows.withOut (ScanV.fn zero rows scan) fuel (s, []) with
  | none => none
  | some (err, (s1, out)) => some ((out, err), s1)

/-- The Go function `Pluck(rows, queryErr) (out []V, err error)`. -/
def Pluck {σ V : Type} (zero : V) (rows : Rows σ V) (queryErr : error) (fuel : Nat)
    (s : σ) : Option ((List V × error) × σ) :=
  match queryErr with
  | some e => some (([], some e), s)
  | none => ScanV zero rows (fun v rows s => rows.Scan v s) fuel s

/-- A world with the memory that holds the variables `v` of the callbacks of
`Scan`: `heap` lists the contents of these variables, and the address of a
variable is its index in the list.  `state` is everything else. -/
structure Mem (σ V : Type) where
  state : σ
  heap : List V

/-- The cursor `rows` in a world with memory: its methods leave the heap
alone. -/
def Rows.onMem {σ V : Type} (rows : Rows σ V) : Rows (Mem σ V) V where
  Scan := fun v m => match rows.Scan v m.state with
    | (r, s1) => (r, { state := s1, heap := m.heap })
  Close := fun m => match rows.Close m.state with
    | (r, s1) => (r, { state := s1, heap := m.heap })
  Next := fun m => match rows.Next m.state with
    | (r, s1) => (r, { state := s1, heap := m.heap })
  Err := fun m => match rows.Err m.state with
    | (r, s1) => (r, { state := s1, heap := m.heap })

/-- The cursor `rows` seen from inside `Scan`: the state is the cursor state
together with the variable `out` that the callback of `Scan` captures, a
slice of addresses; the methods of the cursor leave `out` alone. -/
def Rows.withRefs {σ V : Type} (rows : Rows σ V) : Rows (σ × List Nat) V where
  Scan := fun v s => match rows.Scan v s.1 with
    | (r, s1) => (r, (s1, s.2))
  Close := fun s => match rows.Close s.1 with
    | (r, s1) => (r, (s1, s.2))
  Next := fun s => match rows.Next s.1 with
    | (r, s1) => (r, (s1, s.2))
  Err := fun s => match rows.Err s.1 with
    | (r, s1) => (r, (s1, s.2))

/-- The function literal that `Scan` hands to `Iter`: a fresh variable `v`,
which holds the zero value `zero` at a new address `p`, the call
`scan(&v, rows)`, and `out = append(out, &v)` when it returned nil.  The
function `scan` is given the address. -/
def Scan.fn {σ V : Type} (zero : V) (rows : Rows (Mem σ V) V)
    (scan : Nat → Row (Mem σ V) V → Mem σ V → error × Mem σ V) :
    Mem σ V × List Nat → error × (Mem σ V × List Nat) :=
  fun s =>
    let p := s.1.heap.length
    match scan p rows.toRow { state := s.1.state, heap := s.1.heap ++ [zero] } with
    | (none, m1) => (none, (m1, s.2 ++ [p]))
    | (some err, m1) => (some err, (m1, s.2))

/-- The Go function `Scan(rows, scan) (out []P, err error)`: `out` is a
sequence of addresses in the memory returned with it. -/
def Scan {σ V : Type} (zero : V) (rows : Rows (Mem σ V) V)
    (scan : Nat → Row (Mem σ V) V → Mem σ V → error × Mem σ V) (fuel : Nat) (m : Mem σ V) :
    Option ((List Nat × error) × Mem σ V) :=
  match Iter rows.withRefs (Scan.fn zero rows scan) fuel (m, []) with
  | none => none
  | some (err, (m1, out)) => some ((out, err), m1)

/-- The call `scan(&v, rows)` as `ScanV` makes it, for a function `scan` that
is given an address: the variable `v` is held at a new address, and the value
it holds after the call is what `ScanV` appends. -/
def ScanV.viaAddress {σ V : Type}
    (scan : Nat → Row (Mem σ V) V → Mem σ V → error × Mem σ V) :
    V → Row (Mem σ V) V → Mem σ V → (error × V) × Mem σ V :=
  fun v rows m =>
    let p := m.heap.length
    match scan p rows { state := m.state, heap := m.heap ++ [v] } with
    | (err, m1) => ((err, m1.heap.getD p v), m1)

/-! ## Specification vocabulary for the builder -/

/-- The number of markers `?` in a text. -/
def markers (s : GoString) : Nat := s.count '?'

/-- The template `s0 ? s1 ? ... ? sn` made of the segment `s0` and the
segments `ss = [s1, ..., sn]`, one marker before each of the latter. -/
def template : GoString → List GoString → GoString
  | s0, [] => s0
  | s0, s :: ss => s0 ++ '?' :: template s ss

/-- What stands in the output text at the marker of an argument: the
statement of a sub-fragment, the marker itself for any other value. -/
def Any.text {α : Type} : Any α → GoString
  | Any.lit _ => ['?']
  | Any.expr Statement _ => Statement

/-- What an argument contributes to the output arguments: the arguments of a
sub-fragment, the value itself otherwise. -/
def Any.flat {α : Type} : Any α → List (Any α)
  | Any.lit v => [Any.lit v]
  | Any.expr _ Args => Args

/-- The text `s0 r1 s1 r2 ... rn sn` for the arguments `a1..an` and the
segments `s1..sn`, with `ri` the text of `ai`. -/
def spliced {α : Type} : GoString → List (Any α) → List GoString → GoString
  | s0, a :: as, s :: ss => s0 ++ a.text ++ spliced s as ss
  | s0, _, _ => s0

/-- The contributions of the arguments, concatenated from left to right. -/
def flatArgs {α : Type} : List (Any α) → List (Any α)
  | [] => []
  | a :: as => a.flat ++ flatArgs as

/-- A sub-fragment argument has as many markers in its text as it has
arguments; nothing is asked of another value. -/
def Any.balanced {α : Type} : Any α → Prop
  | Any.lit _ => True
  | Any.expr Statement Args => markers Statement = Args.length

/-- The text of `n` markers joined by `, `. -/
def joinedMarkers (n : Nat) : GoString :=
  List.intercalate [',', ' '] (List.replicate n ['?'])

/-- The value is not a fragment: its dynamic type is not `Expr`. -/
def Any.isLit {α : Type} : Any α → Prop
  | Any.lit _ => True
  | Any.expr _ _ => False

/-- The fragments obtained by a finite composition of `SQL` and `In` that
starts from values that are not fragments: every fragment among the arguments
of the call, or among the items, has been obtained in this way before. -/
inductive Built {α : Type} : Expr α → Prop where
  | sql (stmt : GoString) (args : List (Any α)) (e : Expr α) :
      (∀ st sa, Any.expr st sa ∈ args → Built { Statement := st, Args := sa }) →
      SQL stmt args = some e → Built e
  | list (items : List (Any α)) (e : Expr α) :
      (∀ st sa, Any.expr st sa ∈ items → Built { Statement := st, Args := sa }) →
      In items = some e → Built e

/-- The loop of `SQL` followed by its final `b.WriteString(stmt[end:])`: the
text of the builder and `expr.Args` at the end, or `none` for a panic. -/
def SQL.run {α : Type} (stmt : GoString) (args : List (Any α)) (end_ : Int) (b : GoString)
    (out : List (Any α)) : Option (GoString × List (Any α)) :=
  match SQL.loop stmt args end_ b out with
  | none => none
  | some (e, b', out') =>
    match sliceFrom stmt e with
    | none => none
    | some tail => some (b' ++ tail, out')

/-- The text that `DebugSQL` puts before the template: a line feed, the
comment `/* path:line */` and a space. -/
def debugComment (path : GoString) (line : Int) : GoString :=
  ['\n', '/', '*', ' '] ++ path ++ [':'] ++ formatInt line ++ [' ', '*', '/', ' ']

/-- The fragment `e` with the text `p` put before its statement. -/
def Expr.withComment {α : Type} (p : GoString) (e : Expr α) : Expr α :=
  { Statement := p ++ e.Statement, Args := e.Args }

/-! ## Specification vocabulary for the scanner -/

/-- The methods of the interface `Rows`. -/
inductive Call where
  | Scan
  | Close
  | Next
  | Err
  deriving DecidableEq

/-- A cursor state together with the record of the calls made on the cursor,
oldest first. -/
structure Traced (σ : Type) where
  state : σ
  calls : List Call

/-- The cursor `rows` with every call recorded: each method does what it does
on the state and adds its name to the record. -/
def Rows.traced {σ V : Type} (rows : Rows σ V) : Rows (Traced σ) V where
  Scan := fun v w => match rows.Scan v w.state with
    | (r, s1) => (r, { state := s1, calls := w.calls ++ [Call.Scan] })
  Close := fun w => match rows.Close w.state with
    | (r, s1) => (r, { state := s1, calls := w.calls ++ [Call.Close] })
  Next := fun w => match rows.Next w.state with
    | (r, s1) => (r, { state := s1, calls := w.calls ++ [Call.Next] })
  Err := fun w => match rows.Err w.state with
    | (r, s1) => (r, { state := s1, calls := w.calls ++ [Call.Err] })

/-- The number of `Close` calls recorded. -/
def Traced.closes {σ : Type} (w : Traced σ) : Nat := w.calls.count Call.Close

/-- The `Err` check of the round of the loop of `Iter` started in `s`: the
call `rows.Err()` that follows `rows.Next()`, with its result and the state
after it. -/
def Iter.errCheck {σ V : Type} (rows : Rows σ V) (s : σ) : error × σ :=
  rows.Err (rows.Next s).2

/-- The callback of the round started in `s`: the call `fn()` that follows
`rows.Next()` and `rows.Err()`, with its result and the state after it. -/
def Iter.callback {σ V : Type} (rows : Rows σ V) (fn : σ → error × σ) (s : σ) : error × σ :=
  fn (Iter.errCheck rows s).2

/-- The state after one full round of the loop of `Iter` started in `s`:
`rows.Next()`, `rows.Err()`, `fn()`. -/
def Iter.afterRow {σ V : Type} (rows : Rows σ V) (fn : σ → error × σ) (s : σ) : σ :=
  (Iter.callback rows fn s).2

/-- A round without fault in state `s`: `Next` returns true, the `Err` check
that follows returns nil, and then the callback returns nil. -/
def Iter.rowOk {σ V : Type} (rows : Rows σ V) (fn : σ → error × σ) (s : σ) : Prop :=
  (rows.Next s).1 = true ∧ (Iter.errCheck rows s).1 = none ∧
    (Iter.callback rows fn s).1 = none

/-- The state after `n` full rounds started in `s`. -/
def Iter.afterRows {σ V : Type} (rows : Rows σ V) (fn : σ → error × σ) : Nat → σ → σ
  | 0, s => s
  | n + 1, s => Iter.afterRows rows fn n (Iter.afterRow rows fn s)

/-- The first `n` rounds started in `s` are without fault. -/
def Iter.okRows {σ V : Type} (rows : Rows σ V) (fn : σ → error × σ) : Nat → σ → Prop
  | 0, _ => True
  | n + 1, s => Iter.rowOk rows fn s ∧ Iter.okRows rows fn n (Iter.afterRow rows fn s)

/-- From state `s` the cursor yields one row for each value of the list: each
time `Next` returns true, the `Err` check returns nil and `scan`, given a
fresh target, returns nil and leaves that value in the target; `s'` is the
state after the last of these rows. -/
def ScanV.yields {σ V : Type} (zero : V) (rows : Rows σ V)
    (scan : V → Row σ V → σ → (error × V) × σ) : List V → σ → σ → Prop
  | [], s, s' => s' = s
  | v :: vs, s, s' =>
    (rows.Next s).1 = true ∧ (rows.Err (rows.Next s).2).1 = none ∧
      (scan zero rows.toRow (rows.Err (rows.Next s).2).2).1 = (none, v) ∧
      ScanV.yields zero rows scan vs (scan zero rows.toRow (rows.Err (rows.Next s).2).2).2 s'

/-- The number of `Next` calls recorded. -/
def Traced.nexts {σ : Type} (w : Traced σ) : Nat := w.calls.count Call.Next

/-- The cursor `rows` seen together with a counter of the invocations of the
callback; the methods of the cursor leave the counter alone. -/
def Rows.withCount {σ V : Type} (rows : Rows σ V) : Rows (σ × Nat) V where
  Scan := fun v s => match rows.Scan v s.1 with
    | (r, s1) => (r, (s1, s.2))
  Close := fun s => match rows.Close s.1 with
    | (r, s1) => (r, (s1, s.2))
  Next := fun s => match rows.Next s.1 with
    | (r, s1) => (r, (s1, s.2))
  Err := fun s => match rows.Err s.1 with
    | (r, s1) => (r, (s1, s.2))

/-- The callback `fn` with its invocations counted: each invocation does what
`fn` does and adds one to the counter. -/
def countedFn {σ : Type} (fn : σ → error × σ) : σ × Nat → error × (σ × Nat) :=
  fun s => match fn s.1 with
    | (r, s1) => (r, (s1, s.2 + 1))

/-- The values that the addresses `ptrs` point to in the memory `m`. -/
def Mem.values {σ V : Type} (zero : V) (m : Mem σ V) (ptrs : List Nat) : List V :=
  ptrs.map (fun p => m.heap.getD p zero)

/-- The function `scan`, called with the cursor `row`, leaves alone the
variables allocated before its target: it frees no variable, and a variable
at an address below the target `p` holds after the call what it held
before. -/
def Scan.keepsEarlier {σ V : Type} (zero : V) (row : Row (Mem σ V) V)
    (scan : Nat → Row (Mem σ V) V → Mem σ V → error × Mem σ V) : Prop :=
  ∀ (p : Nat) (m : Mem σ V),
    m.heap.length ≤ (scan p row m).2.heap.length ∧
      ∀ q, q < p → (scan p row m).2.heap.getD q zero = m.heap.getD q zero

/-- The addresses `ptrs` are allocated in the memory `m` and point, one by
one, to the values `vals`. -/
def Mem.pointsTo {σ V : Type} (zero : V) (m : Mem σ V) (ptrs : List Nat) (vals : List V) :
    Prop :=
  (∀ p ∈ ptrs, p < m.heap.length) ∧ Mem.values zero m ptrs = vals

/-- A scan function for the examples: it scans the row into its target. -/
def exampleScan : Nat → Row (Mem (List Nat × Nat) Nat) Nat → Mem (List Nat × Nat) Nat →
    error × Mem (List Nat × Nat) Nat :=
  fun p row m =>
    match row.Scan (m.heap.getD p 0) m with
    | ((err, v), m1) => (err, { state := m1.state, heap := m1.heap.set p v })

/-- A scan function for the examples that keeps the address of the target of
the row before and stores 0 there: it scans the row into its target, and
writes 0 at the address below its target when there is one. -/
def exampleScanKeeping : Nat → Row (Mem (List Nat × Nat) Nat) Nat →
    Mem (List Nat × Nat) Nat → error × Mem (List Nat × Nat) Nat :=
  fun p row m =>
    match row.Scan (m.heap.getD p 0) m with
    | ((err, v), m1) =>
      (err, { state := m1.state,
              heap := if p = 0 then m1.heap.set p v else (m1.heap.set p v).set (p - 1) 0 })

/-- A cursor for the examples.  The state is the list of the rows to come and
the current row; `Scan` stores the current row in its target; `Err` returns
`deferred` once no row is left; `Close` returns `closeErr`. -/
def exampleRows (deferred closeErr : error) : Rows (List Nat × Nat) Nat where
  Scan := fun _ s => ((none, s.2), s)
  Close := fun s => (closeErr, s)
  Next := fun s => match s.1 with
    | [] => (false, s)
    | x :: xs => (true, (xs, x))
  Err := fun s => match s.1 with
    | [] => (deferred, s)
    | _ :: _ => (none, s)

/-! ## Lemmas on strings -/

theorem IndexByte_ge (s : GoString) (c : Char) : -1 ≤ IndexByte s c := by
  induction s with
  | nil => simp [IndexByte]
  | cons b bs ih =>
    simp only [IndexByte]
    split
    · omega
    · split <;> omega

theorem IndexByte_append_cons (s rest : GoString) (c : Char) (h : c ∉ s) :
    IndexByte (s ++ c :: rest) c = s.length := by
  induction s with
  | nil => simp [IndexByte]
  | cons b bs ih =>
    have hb : b ≠ c := fun hbc => h (by simp [hbc])
    have hbs : c ∉ bs := fun hc => h (by simp [hc])
    have : ¬ ((bs.length : Int) < 0) := by omega
    rw [List.cons_append, IndexByte, if_neg hb]
    simp only [ih hbs, if_neg this, List.length_cons, Nat.cast_add, Nat.cast_one]

theorem IndexByte_absent (s : GoString) (c : Char) (h : c ∉ s) :
    IndexByte s c = -1 := by
  induction s with
  | nil => simp [IndexByte]
  | cons b bs ih =>
    have hb : b ≠ c := fun hbc => h (by simp [hbc])
    have hbs : c ∉ bs := fun hc => h (by simp [hc])
    simp [IndexByte, if_neg hb, ih hbs]

theorem slice_mid (pre mid post : GoString) :
    slice (pre ++ mid ++ post) pre.length (pre.length + mid.length) = some mid := by
  unfold slice
  have h : (0 : Int) ≤ pre.length ∧ (pre.length : Int) ≤ pre.length + mid.length ∧
      (pre.length : Int) + mid.length ≤ ((pre ++ mid ++ post).length : Int) := by
    simp only [List.length_append, Nat.cast_add]
    omega
  rw [if_pos h]
  have h1 : ((pre.length : Int) + mid.length - pre.length).toNat = mid.length := by omega
  simp [h1, List.append_assoc]

theorem sliceFrom_append (pre post : GoString) :
    sliceFrom (pre ++ post) pre.length = some post := by
  have h := slice_mid pre post []
  simp only [List.append_nil] at h
  unfold sliceFrom
  rw [List.length_append, Nat.cast_add]
  exact h

/-! ## The loop of `SQL` on a well-formed template -/

theorem template_cons_eq (pre s0 s : GoString) (ss : List GoString) :
    pre ++ template s0 (s :: ss) = (pre ++ s0 ++ ['?']) ++ template s ss := by
  simp [template, List.append_assoc]

/-- Started after the text `pre`, with the template `s0 ? s1 ... ? sn` still
ahead and one argument for each marker, the loop ends without a panic, the
final `stmt[end:]` is defined, and the builder and `expr.Args` have grown by
the spliced text and by the flattened arguments. -/
theorem SQL.loop_template {α : Type} (args : List (Any α)) :
    ∀ (pre s0 : GoString) (ss : List GoString) (b : GoString) (out : List (Any α)),
      args.length = ss.length → '?' ∉ s0 → (∀ s ∈ ss, '?' ∉ s) →
      ∃ end_ b' tail,
        SQL.loop (pre ++ template s0 ss) args pre.length b out
            = some (end_, b', out ++ flatArgs args) ∧
          sliceFrom (pre ++ template s0 ss) end_ = some tail ∧
          b' ++ tail = b ++ spliced s0 args ss := by
  induction args with
  | nil =>
    intro pre s0 ss b out hlen _ _
    cases ss with
    | nil =>
      refine ⟨pre.length, b, s0, ?_, ?_, ?_⟩
      · simp [SQL.loop, flatArgs]
      · simpa [template] using sliceFrom_append pre s0
      · simp [spliced]
    | cons s ss => simp at hlen
  | cons a as ih =>
    intro pre s0 ss b out hlen h0 hss
    cases ss with
    | nil => simp at hlen
    | cons s ss =>
      have hlen' : as.length = ss.length := by simpa using hlen
      have hs : '?' ∉ s := hss s (by simp)
      have hss' : ∀ t ∈ ss, '?' ∉ t := fun t ht => hss t (by simp [ht])
      have htail : sliceFrom (pre ++ template s0 (s :: ss)) pre.length
          = some (s0 ++ '?' :: template s ss) := by
        simpa [template] using sliceFrom_append pre (s0 ++ '?' :: template s ss)
      have hidx : IndexByte (s0 ++ '?' :: template s ss) '?' = s0.length :=
        IndexByte_append_cons s0 (template s ss) '?' h0
      have hend : (pre.length : Int) + s0.length + 1 = ((pre ++ s0 ++ ['?']).length : Int) := by
        simp only [List.length_append, List.length_singleton, Nat.cast_add, Nat.cast_one]
      have hsub : slice (pre ++ template s0 (s :: ss)) pre.length
          ((pre.length : Int) + s0.length + 1 - 1) = some s0 := by
        have h := slice_mid pre s0 ('?' :: template s ss)
        have e : (pre.length : Int) + s0.length + 1 - 1 = pre.length + s0.length := by omega
        rw [e]
        simpa [template, List.append_assoc] using h
      have hlit : slice (pre ++ template s0 (s :: ss)) pre.length
          ((pre.length : Int) + s0.length + 1) = some (s0 ++ ['?']) := by
        have h := slice_mid pre (s0 ++ ['?']) (template s ss)
        simp only [List.length_append, List.length_singleton, Nat.cast_add,
          Nat.cast_one] at h
        rw [← add_assoc] at h
        simpa [template, List.append_assoc] using h
      cases a with
      | lit v =>
        obtain ⟨end_, b', tail, h1, h2, h3⟩ :=
          ih (pre ++ s0 ++ ['?']) s ss (b ++ (s0 ++ ['?'])) (out ++ [Any.lit v]) hlen' hs hss'
        refine ⟨end_, b', tail, ?_, ?_, ?_⟩
        · rw [SQL.loop, htail]
          simp only [hidx, hlit]
          rw [hend, template_cons_eq, h1]
          simp [flatArgs, Any.flat, List.append_assoc]
        · rw [template_cons_eq]; exact h2
        · rw [h3]; simp [spliced, Any.text, List.append_assoc]
      | expr st sa =>
        obtain ⟨end_, b', tail, h1, h2, h3⟩ :=
          ih (pre ++ s0 ++ ['?']) s ss (b ++ s0 ++ st) (out ++ sa) hlen' hs hss'
        refine ⟨end_, b', tail, ?_, ?_, ?_⟩
        · rw [SQL.loop, htail]
          simp only [hidx, hsub]
          rw [hend, template_cons_eq, h1]
          simp [flatArgs, Any.flat, List.append_assoc]
        · rw [template_cons_eq]; exact h2
        · rw [h3]; simp [spliced, Any.text, List.append_assoc]

/-- On a template with one argument for each marker `SQL` returns the spliced
text and the flattened arguments. -/
theorem SQL_template {α : Type} (s0 : GoString) (ss : List GoString) (args : List (Any α))
    (hlen : args.length = ss.length) (h0 : '?' ∉ s0) (hss : ∀ s ∈ ss, '?' ∉ s) :
    SQL (template s0 ss) args
      = some { Statement := spliced s0 args ss, Args := flatArgs args } := by
  unfold SQL
  split
  · rename_i h
    have hargs : args = [] := List.eq_nil_of_length_eq_zero h
    subst hargs
    have hss' : ss = [] := List.eq_nil_of_length_eq_zero (by simpa using hlen.symm)
    subst hss'
    simp [template, spliced, flatArgs]
  · obtain ⟨end_, b', tail, h1, h2, h3⟩ := SQL.loop_template args [] s0 ss [] [] hlen h0 hss
    simp only [List.nil_append, List.length_nil, Nat.cast_zero] at h1 h2 h3
    rw [h1]
    simp only [h2, h3]

/-- Every text is a template: it splits at its markers into segments that
hold no marker, one segment more than there are markers. -/
theorem exists_template (stmt : GoString) :
    ∃ (s0 : GoString) (ss : List GoString),
      stmt = template s0 ss ∧ ss.length = markers stmt ∧
        '?' ∉ s0 ∧ ∀ s ∈ ss, '?' ∉ s := by
  induction stmt with
  | nil => exact ⟨[], [], by simp [template], by simp [markers], by simp, by simp⟩
  | cons c rest ih =>
    obtain ⟨s0, ss, h1, h2, h3, h4⟩ := ih
    by_cases hc : c = '?'
    · refine ⟨[], s0 :: ss, ?_, ?_, by simp, ?_⟩
      · simp [template, hc, h1]
      · simp [markers, hc] at h2 ⊢
        exact h2
      · intro s hs
        rcases List.mem_cons.mp hs with h | h
        · rw [h]; exact h3
        · exact h4 s h
    · refine ⟨c :: s0, ss, ?_, ?_, ?_, h4⟩
      · cases ss <;> simp [template, h1]
      · simp only [markers] at h2 ⊢
        simp [List.count_cons, hc, h2]
      · intro hm
        rcases List.mem_cons.mp hm with h | h
        · exact hc h.symm
        · exact h3 h

/-- On a template with one argument for each marker, `SQL` returns the
flattened arguments whatever the text between the markers is. -/
theorem SQL_of_markers {α : Type} (stmt : GoString) (args : List (Any α))
    (h : markers stmt = args.length) :
    ∃ (s0 : GoString) (ss : List GoString),
      stmt = template s0 ss ∧ args.length = ss.length ∧ '?' ∉ s0 ∧ (∀ s ∈ ss, '?' ∉ s) ∧
        SQL stmt args = some { Statement := spliced s0 args ss, Args := flatArgs args } := by
  obtain ⟨s0, ss, h1, h2, h3, h4⟩ := exists_template stmt
  have hlen : args.length = ss.length := by omega
  refine ⟨s0, ss, h1, hlen, h3, h4, ?_⟩
  rw [h1]
  exact SQL_template s0 ss args hlen h3 h4

theorem markers_spliced {α : Type} (args : List (Any α)) :
    ∀ (s0 : GoString) (ss : List GoString),
      args.length = ss.length → '?' ∉ s0 → (∀ s ∈ ss, '?' ∉ s) →
      (∀ a ∈ args, a.balanced) →
      markers (spliced s0 args ss) = (flatArgs args).length := by
  induction args with
  | nil =>
    intro s0 ss _ h0 _ _
    simp [spliced, flatArgs, markers, List.count_eq_zero_of_not_mem h0]
  | cons a as ih =>
    intro s0 ss hlen h0 hss hb
    cases ss with
    | nil => simp at hlen
    | cons s ss =>
      have hrec := ih s ss (by simpa using hlen) (hss s (by simp))
        (fun t ht => hss t (by simp [ht])) (fun x hx => hb x (by simp [hx]))
      have ha : markers a.text = a.flat.length := by
        have := hb a (by simp)
        cases a with
        | lit v => simp [Any.text, Any.flat, markers]
        | expr st sa => simpa [Any.text, Any.flat, Any.balanced] using this
      simp only [markers] at hrec ha ⊢
      simp only [spliced, flatArgs, List.count_append, List.length_append, hrec, ha,
        List.count_eq_zero_of_not_mem h0]
      omega

/-! ## Theorems on `SQL` -/

/-- C1: for a template `s0 ? s1 ? ... ? sn` whose segments hold no marker and
arguments `a1..an` (the case `n = 0` included), `SQL` returns, and the text of
its result is `s0 r1 s1 ... rn sn`, where `ri` is the statement of `ai` when
`ai` is a sub-fragment and the single marker otherwise.  The markers inside a
spliced statement stand where the replaced marker stood and are not taken as
markers of the template. -/
theorem SQL_text_spliced {α : Type} (s0 : GoString) (ss : List GoString)
    (args : List (Any α)) (hlen : args.length = ss.length) (h0 : '?' ∉ s0)
    (hss : ∀ s ∈ ss, '?' ∉ s) :
    (SQL (template s0 ss) args).map Expr.Statement = some (spliced s0 args ss) := by
  rw [SQL_template s0 ss args hlen h0 hss]
  rfl

/-- C2: for a template with exactly `len(args)` markers, `SQL` returns, and
the arguments of its result are the concatenation, from left to right, of
the arguments of each sub-fragment and of each other value itself. -/
theorem SQL_args_flattened {α : Type} (stmt : GoString) (args : List (Any α))
    (h : markers stmt = args.length) :
    (SQL stmt args).map Expr.Args = some (flatArgs args) := by
  obtain ⟨s0, ss, _, _, _, _, h5⟩ := SQL_of_markers stmt args h
  rw [h5]
  rfl

/-- C3: for a template with exactly `len(args)` markers and arguments whose
sub-fragments each have as many markers in their text as arguments, `SQL`
returns a fragment with as many markers in its text as arguments. -/
theorem SQL_marker_count {α : Type} (stmt : GoString) (args : List (Any α))
    (h : markers stmt = args.length) (hb : ∀ a ∈ args, a.balanced) :
    ∃ e : Expr α, SQL stmt args = some e ∧ markers e.Statement = e.Args.length := by
  obtain ⟨s0, ss, _, h2, h3, h4, h5⟩ := SQL_of_markers stmt args h
  exact ⟨_, h5, markers_spliced args s0 ss h2 h3 h4 hb⟩

theorem SQL_text_spliced_witness :
    [Any.lit 7, Any.expr "SELECT * FROM t WHERE b=?".toList [Any.lit 5]].length
        = [" FROM (".toList, ") x".toList].length ∧
      '?' ∉ "SELECT ".toList ∧
      (∀ s ∈ [" FROM (".toList, ") x".toList], '?' ∉ s) ∧
      (SQL (template "SELECT ".toList [" FROM (".toList, ") x".toList])
          [Any.lit 7, Any.expr "SELECT * FROM t WHERE b=?".toList [Any.lit 5]]).map
          Expr.Statement
        = some (spliced "SELECT ".toList
            [Any.lit 7, Any.expr "SELECT * FROM t WHERE b=?".toList [Any.lit 5]]
            [" FROM (".toList, ") x".toList]) :=
  ⟨by decide, by decide, by decide,
    SQL_text_spliced "SELECT ".toList [" FROM (".toList, ") x".toList]
      [Any.lit 7, Any.expr "SELECT * FROM t WHERE b=?".toList [Any.lit 5]]
      (by decide) (by decide) (by decide)⟩

theorem SQL_args_flattened_witness :
    markers "SELECT ? FROM (?) x".toList
        = [Any.lit 7, Any.expr "SELECT * FROM t WHERE b=?".toList [Any.lit 5]].length ∧
      (SQL "SELECT ? FROM (?) x".toList
          [Any.lit 7, Any.expr "SELECT * FROM t WHERE b=?".toList [Any.lit 5]]).map Expr.Args
        = some (flatArgs
            [Any.lit 7, Any.expr "SELECT * FROM t WHERE b=?".toList [Any.lit 5]]) :=
  ⟨by decide,
    SQL_args_flattened "SELECT ? FROM (?) x".toList
      [Any.lit 7, Any.expr "SELECT * FROM t WHERE b=?".toList [Any.lit 5]] (by decide)⟩

theorem SQL_marker_count_witness :
    markers "a ? b".toList = [Any.expr "c ? d".toList [Any.lit 1]].length ∧
      (∀ a ∈ [Any.expr "c ? d".toList [Any.lit 1]], a.balanced) ∧
      ∃ e : Expr Nat, SQL "a ? b".toList [Any.expr "c ? d".toList [Any.lit 1]] = some e ∧
        markers e.Statement = e.Args.length :=
  ⟨by decide, by simp [Any.balanced, markers],
    SQL_marker_count "a ? b".toList [Any.expr "c ? d".toList [Any.lit 1]] (by decide)
      (by simp [Any.balanced, markers])⟩

/-! ## Lemmas on `Iter` -/

theorem Iter.loop_rowOk {σ V : Type} (rows : Rows σ V) (fn : σ → error × σ) (s : σ)
    (h : Iter.rowOk rows fn s) (fuel : Nat) :
    Iter.loop rows fn (fuel + 1) s = Iter.loop rows fn fuel (Iter.afterRow rows fn s) := by
  obtain ⟨h1, h2, h3⟩ := h
  unfold Iter.callback Iter.errCheck at h3
  unfold Iter.errCheck at h2
  unfold Iter.afterRow Iter.callback Iter.errCheck
  rw [Iter.loop]
  rcases hn : rows.Next s with ⟨more, s1⟩
  rw [hn] at h1 h2 h3
  simp only at h1 h2 h3
  subst h1
  rcases he : rows.Err s1 with ⟨err, s2⟩
  rw [he] at h2 h3
  simp only at h2 h3
  subst h2
  rcases hf : fn s2 with ⟨ferr, s3⟩
  rw [hf] at h3
  simp only at h3
  subst h3
  simp only [he, hf]

theorem Iter.loop_okRows {σ V : Type} (rows : Rows σ V) (fn : σ → error × σ) :
    ∀ (n : Nat) (s : σ), Iter.okRows rows fn n s → ∀ fuel : Nat,
      Iter.loop rows fn (n + fuel) s = Iter.loop rows fn fuel (Iter.afterRows rows fn n s) := by
  intro n
  induction n with
  | zero => intro s _ fuel; simp [Iter.afterRows]
  | succ n ih =>
    intro s h fuel
    obtain ⟨h1, h2⟩ := h
    have e : n + 1 + fuel = (n + fuel) + 1 := by omega
    rw [e, Iter.loop_rowOk rows fn s h1, ih _ h2]
    rfl

theorem traced_Next_closes {σ V : Type} (rows : Rows σ V) (w : Traced σ) :
    (rows.traced.Next w).2.closes = w.closes := by
  simp [Rows.traced, Traced.closes, List.count_append]

theorem traced_Err_closes {σ V : Type} (rows : Rows σ V) (w : Traced σ) :
    (rows.traced.Err w).2.closes = w.closes := by
  simp [Rows.traced, Traced.closes, List.count_append]

theorem traced_Close_closes {σ V : Type} (rows : Rows σ V) (w : Traced σ) :
    (rows.traced.Close w).2.closes = w.closes + 1 := by
  simp [Rows.traced, Traced.closes, List.count_append]

/-- A quantity that no call of `Next`, of `Err` or of the callback changes is
the same after the loop of `Iter` as before it. -/
theorem Iter.loop_count {σ V : Type} (rows : Rows σ V) (fn : σ → error × σ)
    (count : σ → Nat) (hN : ∀ s, count (rows.Next s).2 = count s)
    (hE : ∀ s, count (rows.Err s).2 = count s) (hF : ∀ s, count (fn s).2 = count s) :
    ∀ (fuel : Nat) (s : σ) (r : error) (s' : σ),
      Iter.loop rows fn fuel s = some (r, s') → count s' = count s := by
  intro fuel
  induction fuel with
  | zero => intro s r s' h; simp [Iter.loop] at h
  | succ fuel ih =>
    intro s r s' h
    rw [Iter.loop] at h
    have hN := hN s
    rcases hn : rows.Next s with ⟨more, sa⟩
    rw [hn] at h hN
    have hE := hE sa
    rcases he : rows.Err sa with ⟨err, sb⟩
    rw [he] at hE
    simp only at hN hE
    cases more with
    | false =>
      simp only [he, Option.some.injEq, Prod.mk.injEq] at h
      rw [← h.2, hE, hN]
    | true =>
      simp only [he] at h
      cases err with
      | some e =>
        simp only [Option.some.injEq, Prod.mk.injEq] at h
        rw [← h.2, hE, hN]
      | none =>
        simp only at h
        have hF := hF sb
        rcases hf : fn sb with ⟨ferr, sc⟩
        rw [hf] at h hF
        simp only at hF
        cases ferr with
        | some e =>
          simp only [Option.some.injEq, Prod.mk.injEq] at h
          rw [← h.2, hF, hE, hN]
        | none =>
          simp only at h
          rw [ih sc r s' h, hF, hE, hN]

/-- What `Iter` returns once its loop has returned. -/
theorem Iter_of_loop {σ V : Type} (rows : Rows σ V) (fn : σ → error × σ) (fuel : Nat)
    (s s1 : σ) (r : error) (h : Iter.loop rows fn fuel s = some (r, s1)) :
    Iter rows fn fuel s = some (Join [r, (rows.Close s1).1], (rows.Close s1).2) := by
  unfold Iter
  rw [h]

/-- The round in which the `Err` check returns an error ends the loop with
that error, whether `Next` returned true or false. -/
theorem Iter.loop_errCheck {σ V : Type} (rows : Rows σ V) (fn : σ → error × σ) (s : σ)
    (e : GoError) (h : (Iter.errCheck rows s).1 = some e) (fuel : Nat) :
    Iter.loop rows fn (fuel + 1) s = some (some e, (Iter.errCheck rows s).2) := by
  unfold Iter.errCheck at h ⊢
  rw [Iter.loop]
  rcases hn : rows.Next s with ⟨more, s1⟩
  rw [hn] at h
  rcases he : rows.Err s1 with ⟨err, s2⟩
  rw [he] at h
  simp only at h
  subst h
  cases more <;> simp only [he]

/-- The round in which `Next` returns false ends the loop with the result of
the final `Err` check. -/
theorem Iter.loop_exhausted {σ V : Type} (rows : Rows σ V) (fn : σ → error × σ) (s : σ)
    (h : (rows.Next s).1 = false) (fuel : Nat) :
    Iter.loop rows fn (fuel + 1) s = some (Iter.errCheck rows s) := by
  unfold Iter.errCheck
  rw [Iter.loop]
  rcases hn : rows.Next s with ⟨more, s1⟩
  rw [hn] at h
  simp only at h
  subst h
  rfl

/-- The round in which the callback fails ends the loop with the error of the
callback wrapped by `fmt.Errorf`. -/
theorem Iter.loop_callback {σ V : Type} (rows : Rows σ V) (fn : σ → error × σ) (s : σ)
    (e : GoError) (h1 : (rows.Next s).1 = true) (h2 : (Iter.errCheck rows s).1 = none)
    (h3 : (Iter.callback rows fn s).1 = some e) (fuel : Nat) :
    Iter.loop rows fn (fuel + 1) s
      = some (some (Errorf "failed to scan rows: " e), (Iter.callback rows fn s).2) := by
  unfold Iter.callback Iter.errCheck at h3 ⊢
  unfold Iter.errCheck at h2
  rw [Iter.loop]
  rcases hn : rows.Next s with ⟨more, s1⟩
  rw [hn] at h1 h2 h3
  simp only at h1 h2 h3
  subst h1
  rcases he : rows.Err s1 with ⟨err, s2⟩
  rw [he] at h2 h3
  simp only at h2 h3
  subst h2
  rcases hf : fn s2 with ⟨ferr, s3⟩
  rw [hf] at h3
  simp only at h3
  subst h3
  simp only [he, hf]

theorem GoError.Contains_self (e : GoError) : GoError.Contains e e := by
  cases e <;> simp [GoError.Contains]

theorem GoError.Contains_join_one (e : GoError) :
    GoError.Contains e (GoError.joinError [e]) := by
  simp [GoError.Contains, GoError.ContainsAny, GoError.Contains_self]

theorem Join_some_none (e : GoError) : Join [some e, none] = some (GoError.joinError [e]) := by
  simp [Join]

theorem Join_none_some (e : GoError) : Join [none, some e] = some (GoError.joinError [e]) := by
  simp [Join]

theorem Join_some_some (e1 e2 : GoError) :
    Join [some e1, some e2] = some (GoError.joinError [e1, e2]) := by
  simp [Join]

theorem Join_none_none : Join [none, none] = none := by
  simp [Join]

theorem Iter.okRows_of_forall {σ V : Type} (rows : Rows σ V) (fn : σ → error × σ) :
    ∀ (n : Nat) (s : σ),
      (∀ k, k < n → Iter.rowOk rows fn (Iter.afterRows rows fn k s)) →
      Iter.okRows rows fn n s := by
  intro n
  induction n with
  | zero => intro s _; trivial
  | succ n ih =>
    intro s h
    refine ⟨h 0 (by omega), ih _ ?_⟩
    intro k hk
    exact h (k + 1) (by omega)

/-- The rounds of `ScanV` on the rows that the cursor yields: the loop goes
on from the state after them with their values appended to `out`. -/
theorem ScanV.loop_yields {σ V : Type} (zero : V) (rows : Rows σ V)
    (scan : V → Row σ V → σ → (error × V) × σ) :
    ∀ (vs : List V) (s sn : σ), ScanV.yields zero rows scan vs s sn →
      ∀ (fuel : Nat) (out : List V),
        Iter.loop rows.withOut (ScanV.fn zero rows scan) (vs.length + fuel) (s, out)
          = Iter.loop rows.withOut (ScanV.fn zero rows scan) fuel (sn, out ++ vs) := by
  intro vs
  induction vs with
  | nil =>
    intro s sn h fuel out
    simp only [ScanV.yields] at h
    subst h
    simp
  | cons v vs ih =>
    intro s sn h fuel out
    obtain ⟨h1, h2, h3, h4⟩ := h
    have e : (v :: vs).length + fuel = (vs.length + fuel) + 1 := by
      simp only [List.length_cons]; omega
    rw [e, Iter.loop]
    rcases hn : rows.Next s with ⟨more, s1⟩
    rw [hn] at h1 h2 h3 h4
    simp only at h1 h2 h3 h4
    subst h1
    rcases he : rows.Err s1 with ⟨err, s2⟩
    rw [he] at h2 h3 h4
    simp only at h2 h3 h4
    subst h2
    rcases hs : scan zero rows.toRow s2 with ⟨⟨serr, v'⟩, s3⟩
    rw [hs] at h3 h4
    simp only [Prod.mk.injEq] at h3 h4
    obtain ⟨h3a, h3b⟩ := h3
    subst h3a h3b
    simp only [Rows.withOut, hn, he, ScanV.fn, hs]
    have := ih s3 sn h4 fuel (out ++ [v'])
    simp only [Rows.withOut, ScanV.fn, List.append_assoc, List.singleton_append] at this
    exact this

/-- The rows that a recorded cursor yields add no `Close` call to the record
when `scan` adds none. -/
theorem ScanV.yields_closes {σ V : Type} (zero : V) (rows : Rows σ V)
    (scan : V → Row (Traced σ) V → Traced σ → (error × V) × Traced σ)
    (hscan : ∀ v w, (scan v rows.traced.toRow w).2.closes = w.closes) :
    ∀ (vs : List V) (w wn : Traced σ), ScanV.yields zero rows.traced scan vs w wn →
      wn.closes = w.closes := by
  intro vs
  induction vs with
  | nil =>
    intro w wn h
    simp only [ScanV.yields] at h
    rw [h]
  | cons v vs ih =>
    intro w wn h
    obtain ⟨_, _, _, h4⟩ := h
    rw [ih _ _ h4, hscan, traced_Err_closes, traced_Next_closes]

/-! ## Theorems on `Iter`, `Pluck` and `ScanV` -/

/-- C4: on every run of `Iter` that returns, whatever the cursor does and
whatever ended the loop, exactly one `Close` call has been added to the record
of the calls made on the cursor, provided the callback adds none. -/
theorem Iter_closes_exactly_once {σ V : Type} (rows : Rows σ V)
    (fn : Traced σ → error × Traced σ) (hfn : ∀ w, (fn w).2.closes = w.closes)
    (fuel : Nat) (w : Traced σ) (err : error) (w' : Traced σ)
    (h : Iter rows.traced fn fuel w = some (err, w')) :
    w'.closes = w.closes + 1 := by
  unfold Iter at h
  rcases hl : Iter.loop rows.traced fn fuel w with _ | ⟨r, w1⟩
  · simp [hl] at h
  · have h1 := Iter.loop_count rows.traced fn Traced.closes (traced_Next_closes rows)
      (traced_Err_closes rows) hfn fuel w r w1 hl
    have hC := traced_Close_closes rows w1
    rcases hc : rows.traced.Close w1 with ⟨cerr, w2⟩
    simp only [hl, hc, Option.some.injEq, Prod.mk.injEq] at h
    rw [hc] at hC
    simp only at hC
    rw [← h.2, hC, h1]

theorem Iter_closes_exactly_once_witness :
    (∀ w : Traced (List Nat × Nat),
        ((fun w => (none, w)) w : error × Traced (List Nat × Nat)).2.closes = w.closes) ∧
      Iter (exampleRows none none).traced (fun w => (none, w)) 5 ⟨([10, 20], 0), []⟩
        = some (none, ⟨([], 20), [Call.Next, Call.Err, Call.Next, Call.Err, Call.Next,
            Call.Err, Call.Close]⟩) ∧
      (⟨([], 20), [Call.Next, Call.Err, Call.Next, Call.Err, Call.Next, Call.Err,
          Call.Close]⟩ : Traced (List Nat × Nat)).closes
        = (⟨([10, 20], 0), []⟩ : Traced (List Nat × Nat)).closes + 1 :=
  ⟨fun _ => rfl, rfl,
    Iter_closes_exactly_once (exampleRows none none) (fun w => (none, w)) (fun _ => rfl) 5
      ⟨([10, 20], 0), []⟩ none _ rfl⟩

/-- C5, as stated, fails: on a cursor with the rows 10 and 20 whose `Err`
returns an error `d` after the second `Next`, with a `Close` that succeeds and
a callback that never fails, `Iter` does not return `d` itself but the
`joinError` that `errors.Join` builds around it. -/
theorem Iter_deferred_error_as_is_counterexample :
    Iter.okRows (exampleRows (some (GoError.base 1 "bad connection")) none)
        (fun s => (none, s)) 1 ([10, 20], 0) ∧
      (Iter.errCheck (exampleRows (some (GoError.base 1 "bad connection")) none)
          (Iter.afterRows (exampleRows (some (GoError.base 1 "bad connection")) none)
            (fun s => (none, s)) 1 ([10, 20], 0))).1
        = some (GoError.base 1 "bad connection") ∧
      ((exampleRows (some (GoError.base 1 "bad connection")) none).Close ([], 20)).1 = none ∧
      (Iter (exampleRows (some (GoError.base 1 "bad connection")) none)
          (fun s => (none, s)) 2 ([10, 20], 0)).map Prod.fst
        = some (some (GoError.joinError [GoError.base 1 "bad connection"])) ∧
      (Iter (exampleRows (some (GoError.base 1 "bad connection")) none)
          (fun s => (none, s)) 2 ([10, 20], 0)).map Prod.fst
        ≠ some (some (GoError.base 1 "bad connection")) :=
  ⟨⟨⟨rfl, rfl, rfl⟩, trivial⟩, rfl, rfl, rfl, fun h => by
    have h' : some (some (GoError.joinError [GoError.base 1 "bad connection"]))
        = some (some (GoError.base 1 "bad connection")) := h
    simp at h'⟩

/-- C5, amended: when `n` rounds pass without fault and the next `Err` check,
after `Next` returned true or false, returns the error `e`, and `Close` then
succeeds, `Iter` returns for every fuel above `n`, and its error is the
`joinError` whose only member is `e`: it has the text of `e` and `e` is in
its tree. -/
theorem Iter_deferred_error_joined {σ V : Type} (rows : Rows σ V) (fn : σ → error × σ)
    (n : Nat) (s : σ) (e : GoError) (hok : Iter.okRows rows fn n s)
    (herr : (Iter.errCheck rows (Iter.afterRows rows fn n s)).1 = some e)
    (hclose : (rows.Close (Iter.errCheck rows (Iter.afterRows rows fn n s)).2).1 = none) :
    ∀ fuel : Nat, n < fuel →
      Iter rows fn fuel s
          = some (some (GoError.joinError [e]),
              (rows.Close (Iter.errCheck rows (Iter.afterRows rows fn n s)).2).2) ∧
        (GoError.joinError [e]).Error = e.Error ∧
        GoError.Contains e (GoError.joinError [e]) := by
  intro fuel hfuel
  obtain ⟨k, rfl⟩ : ∃ k, fuel = n + (k + 1) := ⟨fuel - n - 1, by omega⟩
  have hl := Iter.loop_okRows rows fn n s hok (k + 1)
  rw [Iter.loop_errCheck rows fn _ e herr k] at hl
  refine ⟨?_, ?_, GoError.Contains_join_one e⟩
  · rw [Iter_of_loop rows fn _ s _ _ hl, hclose, Join_some_none]
  · simp [GoError.Error, GoError.joinText]

theorem Iter_deferred_error_joined_witness :
    Iter.okRows (exampleRows (some (GoError.base 1 "bad connection")) none)
        (fun s => (none, s)) 1 ([10, 20], 0) ∧
      (1 < 2) ∧
      Iter (exampleRows (some (GoError.base 1 "bad connection")) none)
          (fun s => (none, s)) 2 ([10, 20], 0)
        = some (some (GoError.joinError [GoError.base 1 "bad connection"]), ([], 20)) :=
  ⟨⟨⟨rfl, rfl, rfl⟩, trivial⟩, by decide,
    (Iter_deferred_error_joined (exampleRows (some (GoError.base 1 "bad connection")) none)
      (fun s => (none, s)) 1 ([10, 20], 0) (GoError.base 1 "bad connection")
      ⟨⟨rfl, rfl, rfl⟩, trivial⟩ rfl rfl 2 (by decide)).1⟩

/-- C6: when `n` rounds pass without fault and in the next one `Next` returns
true, the `Err` check returns nil and the callback fails with `e`, and `Close`
then succeeds, `Iter` returns for every fuel above `n`; its error is not nil,
its text starts with the context `failed to scan rows: `, which is followed by
what `fmt` prints for `e` (the text of `e` when `e` has no `Format` method),
and `e` is in its tree, unchanged. -/
theorem Iter_callback_error_wrapped {σ V : Type} (rows : Rows σ V) (fn : σ → error × σ)
    (n : Nat) (s : σ) (e : GoError) (hok : Iter.okRows rows fn n s)
    (hnext : (rows.Next (Iter.afterRows rows fn n s)).1 = true)
    (herr : (Iter.errCheck rows (Iter.afterRows rows fn n s)).1 = none)
    (hfn : (Iter.callback rows fn (Iter.afterRows rows fn n s)).1 = some e)
    (hclose : (rows.Close (Iter.callback rows fn (Iter.afterRows rows fn n s)).2).1 = none) :
    ∀ fuel : Nat, n < fuel →
      ∃ r : GoError,
        Iter rows fn fuel s
            = some (some r,
                (rows.Close (Iter.callback rows fn (Iter.afterRows rows fn n s)).2).2) ∧
          r = GoError.joinError [GoError.wrapError ("failed to scan rows: " ++ e.Format) e] ∧
          r.Error = "failed to scan rows: " ++ e.Format ∧
          (∀ id msg, e = GoError.base id msg → r.Error = "failed to scan rows: " ++ msg) ∧
          GoError.Contains e r := by
  intro fuel hfuel
  obtain ⟨k, rfl⟩ : ∃ k, fuel = n + (k + 1) := ⟨fuel - n - 1, by omega⟩
  have hl := Iter.loop_okRows rows fn n s hok (k + 1)
  rw [Iter.loop_callback rows fn _ e hnext herr hfn k] at hl
  refine ⟨_, ?_, rfl, ?_, ?_, ?_⟩
  · rw [Iter_of_loop rows fn _ s _ _ hl, hclose, Join_some_none]
    rfl
  · simp [GoError.Error, GoError.joinText]
  · intro id msg he
    subst he
    simp [GoError.Error, GoError.joinText, GoError.Format]
  · simp [GoError.Contains, GoError.ContainsAny, GoError.Contains_self]

theorem Iter_callback_error_wrapped_witness :
    Iter.okRows (exampleRows none none)
        (fun s => (if s.2 = 20 then some (GoError.formatter 2 "plain" "formatted") else none, s))
        1 ([10, 20, 30], 0) ∧
      (1 < 5) ∧
      (GoError.formatter 2 "plain" "formatted").Error = "plain" ∧
      "failed to scan rows: " ++ (GoError.formatter 2 "plain" "formatted").Format
        = "failed to scan rows: formatted" ∧
      ∃ r : GoError,
        Iter (exampleRows none none)
            (fun s =>
              (if s.2 = 20 then some (GoError.formatter 2 "plain" "formatted") else none, s))
            5 ([10, 20, 30], 0)
          = some (some r, ([30], 20)) ∧
        r = GoError.joinError [GoError.wrapError
            ("failed to scan rows: " ++ (GoError.formatter 2 "plain" "formatted").Format)
            (GoError.formatter 2 "plain" "formatted")] ∧
        r.Error = "failed to scan rows: " ++ (GoError.formatter 2 "plain" "formatted").Format ∧
        (∀ id msg, GoError.formatter 2 "plain" "formatted" = GoError.base id msg →
          r.Error = "failed to scan rows: " ++ msg) ∧
        GoError.Contains (GoError.formatter 2 "plain" "formatted") r :=
  ⟨⟨⟨rfl, rfl, rfl⟩, trivial⟩, by decide, rfl, by decide,
    Iter_callback_error_wrapped (exampleRows none none)
      (fun s => (if s.2 = 20 then some (GoError.formatter 2 "plain" "formatted") else none, s))
      1 ([10, 20, 30], 0) (GoError.formatter 2 "plain" "formatted")
      ⟨⟨rfl, rfl, rfl⟩, trivial⟩ rfl rfl rfl rfl 5 (by decide)⟩

/-- C7: when the loop of `Iter` ends with an error `e1` and the `Close` call
that follows returns an error `e2`, `Iter` returns the `joinError` of `e1` and
`e2`, in this order; both are in its tree. -/
theorem Iter_both_errors_joined {σ V : Type} (rows : Rows σ V) (fn : σ → error × σ)
    (fuel : Nat) (s s1 : σ) (e1 e2 : GoError)
    (hloop : Iter.loop rows fn fuel s = some (some e1, s1))
    (hclose : (rows.Close s1).1 = some e2) :
    Iter rows fn fuel s = some (some (GoError.joinError [e1, e2]), (rows.Close s1).2) ∧
      GoError.Contains e1 (GoError.joinError [e1, e2]) ∧
      GoError.Contains e2 (GoError.joinError [e1, e2]) := by
  refine ⟨?_, ?_, ?_⟩
  · rw [Iter_of_loop rows fn fuel s s1 _ hloop, hclose, Join_some_some]
  · simp [GoError.Contains, GoError.ContainsAny, GoError.Contains_self]
  · simp [GoError.Contains, GoError.ContainsAny, GoError.Contains_self]

theorem Iter_both_errors_joined_witness :
    Iter.loop (exampleRows none (some (GoError.base 3 "close failed")))
        (fun s => (if s.2 = 20 then some (GoError.base 2 "bad value") else none, s))
        5 ([10, 20, 30], 0)
      = some (some (Errorf "failed to scan rows: " (GoError.base 2 "bad value")), ([30], 20)) ∧
    Iter (exampleRows none (some (GoError.base 3 "close failed")))
        (fun s => (if s.2 = 20 then some (GoError.base 2 "bad value") else none, s))
        5 ([10, 20, 30], 0)
      = some (some (GoError.joinError
          [Errorf "failed to scan rows: " (GoError.base 2 "bad value"),
            GoError.base 3 "close failed"]), ([30], 20)) :=
  ⟨rfl,
    (Iter_both_errors_joined (exampleRows none (some (GoError.base 3 "close failed")))
      (fun s => (if s.2 = 20 then some (GoError.base 2 "bad value") else none, s))
      5 ([10, 20, 30], 0) ([30], 20)
      (Errorf "failed to scan rows: " (GoError.base 2 "bad value"))
      (GoError.base 3 "close failed") rfl rfl).1⟩

/-- C8: on a cursor whose `Err` checks are all nil, with a callback that never
fails, a run in which `Next` returns true `n` times and then false returns for
every fuel above `n`; if the `Close` call returns an error `e`, `Iter` returns
the `joinError` whose only member is `e`, which is not nil and has `e` in its
tree; if `Close` returns nil, `Iter` returns nil. -/
theorem Iter_close_error_reported {σ V : Type} (rows : Rows σ V) (fn : σ → error × σ)
    (hErr : ∀ s, (rows.Err s).1 = none) (hfn : ∀ s, (fn s).1 = none) (n : Nat) (s : σ)
    (hnext : ∀ k, k < n → (rows.Next (Iter.afterRows rows fn k s)).1 = true)
    (hend : (rows.Next (Iter.afterRows rows fn n s)).1 = false) :
    ∀ fuel : Nat, n < fuel →
      (∀ e : GoError,
        (rows.Close (Iter.errCheck rows (Iter.afterRows rows fn n s)).2).1 = some e →
          Iter rows fn fuel s
              = some (some (GoError.joinError [e]),
                  (rows.Close (Iter.errCheck rows (Iter.afterRows rows fn n s)).2).2) ∧
            GoError.Contains e (GoError.joinError [e])) ∧
      ((rows.Close (Iter.errCheck rows (Iter.afterRows rows fn n s)).2).1 = none →
        Iter rows fn fuel s
          = some (none, (rows.Close (Iter.errCheck rows (Iter.afterRows rows fn n s)).2).2)) := by
  intro fuel hfuel
  obtain ⟨k, rfl⟩ : ∃ k, fuel = n + (k + 1) := ⟨fuel - n - 1, by omega⟩
  have hok : Iter.okRows rows fn n s :=
    Iter.okRows_of_forall rows fn n s (fun k hk => ⟨hnext k hk, hErr _, hfn _⟩)
  have hl := Iter.loop_okRows rows fn n s hok (k + 1)
  rw [Iter.loop_exhausted rows fn _ hend k] at hl
  have he : (Iter.errCheck rows (Iter.afterRows rows fn n s)).1 = none := hErr _
  have hl' : Iter.loop rows fn (n + (k + 1)) s
      = some (none, (Iter.errCheck rows (Iter.afterRows rows fn n s)).2) := by
    rw [hl, ← he]
  refine ⟨fun e hc => ⟨?_, GoError.Contains_join_one e⟩, fun hc => ?_⟩
  · rw [Iter_of_loop rows fn _ s _ _ hl', hc, Join_none_some]
  · rw [Iter_of_loop rows fn _ s _ _ hl', hc, Join_none_none]

theorem Iter_close_error_reported_witness :
    (∀ s, ((exampleRows none (some (GoError.base 3 "close failed"))).Err s).1 = none) ∧
      (∀ s : List Nat × Nat, ((fun s => (none, s)) s : error × (List Nat × Nat)).1 = none) ∧
      ((exampleRows none (some (GoError.base 3 "close failed"))).Next
          (Iter.afterRows (exampleRows none (some (GoError.base 3 "close failed")))
            (fun s => (none, s)) 2 ([10, 20], 0))).1 = false ∧
      Iter (exampleRows none (some (GoError.base 3 "close failed"))) (fun s => (none, s)) 3
          ([10, 20], 0)
        = some (some (GoError.joinError [GoError.base 3 "close failed"]), ([], 20)) :=
  ⟨fun s => by rcases s with ⟨_ | _, _⟩ <;> rfl, fun _ => rfl, rfl,
    ((Iter_close_error_reported (exampleRows none (some (GoError.base 3 "close failed")))
      (fun s => (none, s)) (fun s => by rcases s with ⟨_ | _, _⟩ <;> rfl) (fun _ => rfl) 2
      ([10, 20], 0)
      (fun k hk => by
        have hk' : k = 0 ∨ k = 1 := by omega
        rcases hk' with h | h <;> subst h <;> rfl)
      rfl 3 (by decide)).1 (GoError.base 3 "close failed") rfl).1⟩

/-- C9: with an error `e` as `queryErr`, `Pluck` returns at once, with any
fuel: the result sequence is empty, the error is `e` itself, and the cursor is
as it was, with no call added to the record of its calls. -/
theorem Pluck_short_circuit {σ V : Type} (zero : V) (rows : Rows σ V) (e : GoError)
    (fuel : Nat) (w : Traced σ) :
    ∃ w' : Traced σ,
      Pluck zero rows.traced (some e) fuel w = some (([], some e), w') ∧
        w'.calls = w.calls ∧ w'.state = w.state :=
  ⟨w, rfl, rfl, rfl⟩

/-- C10: when a cursor yields the rows scanned to `v1..vn`, then `Next`
returns false, the final `Err` check returns nil and `Close` succeeds, `ScanV`
returns for every fuel above `n`; its result is `[v1, ..., vn]` with a nil
error, and exactly one `Close` call has been added to the record of the calls
made on the cursor, provided `scan` adds none. -/
theorem ScanV_collects_in_order {σ V : Type} (zero : V) (rows : Rows σ V)
    (scan : V → Row (Traced σ) V → Traced σ → (error × V) × Traced σ)
    (hscan : ∀ v w, (scan v rows.traced.toRow w).2.closes = w.closes)
    (vs : List V) (w wn : Traced σ)
    (hrows : ScanV.yields zero rows.traced scan vs w wn)
    (hend : (rows.traced.Next wn).1 = false)
    (herr : (Iter.errCheck rows.traced wn).1 = none)
    (hclose : (rows.traced.Close (Iter.errCheck rows.traced wn).2).1 = none) :
    ∀ fuel : Nat, vs.length < fuel →
      ∃ w' : Traced σ,
        ScanV zero rows.traced scan fuel w = some ((vs, none), w') ∧
          w'.closes = w.closes + 1 := by
  intro fuel hfuel
  obtain ⟨k, rfl⟩ : ∃ k, fuel = vs.length + (k + 1) := ⟨fuel - vs.length - 1, by omega⟩
  have hl := ScanV.loop_yields zero rows.traced scan vs w wn hrows (k + 1) []
  have hend' : (rows.traced.withOut.Next (wn, [] ++ vs)).1 = false := by
    simpa [Rows.withOut] using hend
  rw [Iter.loop_exhausted rows.traced.withOut _ _ hend' k] at hl
  refine ⟨(rows.traced.Close (Iter.errCheck rows.traced wn).2).2, ?_, ?_⟩
  · unfold ScanV Iter
    rw [hl]
    rcases hn : rows.traced.Next wn with ⟨more, w1⟩
    rcases he : rows.traced.Err w1 with ⟨err, w2⟩
    rcases hc : rows.traced.Close w2 with ⟨cerr, w3⟩
    simp only [Iter.errCheck, hn, he, hc] at herr hclose ⊢
    subst herr hclose
    simp [Iter.errCheck, Rows.withOut, hn, he, hc, Join]
  · rw [traced_Close_closes]
    unfold Iter.errCheck
    rw [traced_Err_closes, traced_Next_closes,
      ScanV.yields_closes zero rows scan hscan vs w wn hrows]

theorem ScanV_collects_in_order_witness :
    (∀ (v : Nat) (w : Traced (List Nat × Nat)),
        ((exampleRows none none).traced.toRow.Scan v w).2.closes = w.closes) ∧
      ScanV.yields 0 (exampleRows none none).traced (fun v rows s => rows.Scan v s)
        [10, 20, 30] ⟨([10, 20, 30], 0), []⟩
        ⟨([], 30), [Call.Next, Call.Err, Call.Scan, Call.Next, Call.Err, Call.Scan,
          Call.Next, Call.Err, Call.Scan]⟩ ∧
      ([10, 20, 30] : List Nat).length < 4 ∧
      ∃ w' : Traced (List Nat × Nat),
        ScanV 0 (exampleRows none none).traced (fun v rows s => rows.Scan v s) 4
            ⟨([10, 20, 30], 0), []⟩
          = some (([10, 20, 30], none), w') ∧
        w'.closes = (⟨([10, 20, 30], 0), []⟩ : Traced (List Nat × Nat)).closes + 1 :=
  ⟨fun _ _ => by simp [Rows.traced, Traced.closes, List.count_append],
    ⟨rfl, rfl, rfl, rfl, rfl, rfl, rfl, rfl, rfl, rfl⟩, by decide,
    ScanV_collects_in_order 0 (exampleRows none none) (fun v rows s => rows.Scan v s)
      (fun _ _ => by simp [Rows.traced, Traced.closes, List.count_append])
      [10, 20, 30] ⟨([10, 20, 30], 0), []⟩
      ⟨([], 30), [Call.Next, Call.Err, Call.Scan, Call.Next, Call.Err, Call.Scan,
        Call.Next, Call.Err, Call.Scan]⟩
      ⟨rfl, rfl, rfl, rfl, rfl, rfl, rfl, rfl, rfl, rfl⟩ rfl rfl rfl 4 (by decide)⟩

/-! ## More on the loop of `SQL`, and `In` -/

theorem template_append_rest (s0 s rest : GoString) (ss : List GoString) :
    template s0 (s :: ss) ++ rest = s0 ++ '?' :: (template s ss ++ rest) := by
  simp [template, List.append_assoc]

/-- The loop of `SQL` on a template that is followed by any text `rest`:
with one argument for each marker of the template, the loop ends without a
panic and `rest` is copied after the spliced text. -/
theorem SQL.loop_template_rest {α : Type} (rest : GoString) (args : List (Any α)) :
    ∀ (pre s0 : GoString) (ss : List GoString) (b : GoString) (out : List (Any α)),
      args.length = ss.length → '?' ∉ s0 → (∀ s ∈ ss, '?' ∉ s) →
      ∃ end_ b' tail,
        SQL.loop (pre ++ (template s0 ss ++ rest)) args pre.length b out
            = some (end_, b', out ++ flatArgs args) ∧
          sliceFrom (pre ++ (template s0 ss ++ rest)) end_ = some tail ∧
          b' ++ tail = b ++ (spliced s0 args ss ++ rest) := by
  induction args with
  | nil =>
    intro pre s0 ss b out hlen _ _
    cases ss with
    | nil =>
      refine ⟨pre.length, b, s0 ++ rest, ?_, ?_, ?_⟩
      · simp [SQL.loop, flatArgs]
      · simpa [template] using sliceFrom_append pre (s0 ++ rest)
      · simp [spliced]
    | cons s ss => simp at hlen
  | cons a as ih =>
    intro pre s0 ss b out hlen h0 hss
    cases ss with
    | nil => simp at hlen
    | cons s ss =>
      have hlen' : as.length = ss.length := by simpa using hlen
      have hs : '?' ∉ s := hss s (by simp)
      have hss' : ∀ t ∈ ss, '?' ∉ t := fun t ht => hss t (by simp [ht])
      have hstmt : pre ++ (template s0 (s :: ss) ++ rest)
          = (pre ++ s0 ++ ['?']) ++ (template s ss ++ rest) := by
        rw [template_append_rest]; simp [List.append_assoc]
      have htail : sliceFrom (pre ++ (template s0 (s :: ss) ++ rest)) pre.length
          = some (s0 ++ '?' :: (template s ss ++ rest)) := by
        rw [template_append_rest]
        exact sliceFrom_append pre _
      have hidx : IndexByte (s0 ++ '?' :: (template s ss ++ rest)) '?' = s0.length :=
        IndexByte_append_cons s0 _ '?' h0
      have hend : (pre.length : Int) + s0.length + 1 = ((pre ++ s0 ++ ['?']).length : Int) := by
        simp only [List.length_append, List.length_singleton, Nat.cast_add, Nat.cast_one]
      have hsub : slice (pre ++ (template s0 (s :: ss) ++ rest)) pre.length
          ((pre.length : Int) + s0.length + 1 - 1) = some s0 := by
        have h := slice_mid pre s0 ('?' :: (template s ss ++ rest))
        have e : (pre.length : Int) + s0.length + 1 - 1 = pre.length + s0.length := by omega
        rw [e, template_append_rest]
        simpa [List.append_assoc] using h
      have hlit : slice (pre ++ (template s0 (s :: ss) ++ rest)) pre.length
          ((pre.length : Int) + s0.length + 1) = some (s0 ++ ['?']) := by
        have h := slice_mid pre (s0 ++ ['?']) (template s ss ++ rest)
        simp only [List.length_append, List.length_singleton, Nat.cast_add,
          Nat.cast_one] at h
        rw [← add_assoc] at h
        rw [template_append_rest]
        simpa [List.append_assoc] using h
      cases a with
      | lit v =>
        obtain ⟨end_, b', tail, h1, h2, h3⟩ :=
          ih (pre ++ s0 ++ ['?']) s ss (b ++ (s0 ++ ['?'])) (out ++ [Any.lit v]) hlen' hs hss'
        refine ⟨end_, b', tail, ?_, ?_, ?_⟩
        · rw [SQL.loop, htail]
          simp only [hidx, hlit]
          rw [hend, hstmt, h1]
          simp [flatArgs, Any.flat, List.append_assoc]
        · rw [hstmt]; exact h2
        · rw [h3]; simp [spliced, Any.text, List.append_assoc]
      | expr st sa =>
        obtain ⟨end_, b', tail, h1, h2, h3⟩ :=
          ih (pre ++ s0 ++ ['?']) s ss (b ++ s0 ++ st) (out ++ sa) hlen' hs hss'
        refine ⟨end_, b', tail, ?_, ?_, ?_⟩
        · rw [SQL.loop, htail]
          simp only [hidx, hsub]
          rw [hend, hstmt, h1]
          simp [flatArgs, Any.flat, List.append_assoc]
        · rw [hstmt]; exact h2
        · rw [h3]; simp [spliced, Any.text, List.append_assoc]

/-- On a template followed by any text, with one argument for each marker of
the template, `SQL` returns the spliced text followed by that text, and the
flattened arguments. -/
theorem SQL_template_rest {α : Type} (s0 : GoString) (ss : List GoString) (rest : GoString)
    (args : List (Any α)) (hlen : args.length = ss.length) (h0 : '?' ∉ s0)
    (hss : ∀ s ∈ ss, '?' ∉ s) :
    SQL (template s0 ss ++ rest) args
      = some { Statement := spliced s0 args ss ++ rest, Args := flatArgs args } := by
  unfold SQL
  split
  · rename_i h
    have hargs : args = [] := List.eq_nil_of_length_eq_zero h
    subst hargs
    have hss' : ss = [] := List.eq_nil_of_length_eq_zero (by simpa using hlen.symm)
    subst hss'
    simp [template, spliced, flatArgs]
  · obtain ⟨end_, b', tail, h1, h2, h3⟩ :=
      SQL.loop_template_rest rest args [] s0 ss [] [] hlen h0 hss
    simp only [List.nil_append, List.length_nil, Nat.cast_zero] at h1 h2 h3
    rw [h1]
    simp only [h2, h3]

/-- One sub-fragment spliced at the first marker of a text. -/
theorem SQL_single_sub {α : Type} (pre post st : GoString) (sa : List (Any α))
    (h : '?' ∉ pre) :
    SQL (pre ++ ['?'] ++ post) [Any.expr st sa]
      = some { Statement := pre ++ st ++ post, Args := sa } := by
  have h1 := SQL_template_rest pre [[]] post [Any.expr st sa] rfl h (by simp)
  simpa [template, spliced, flatArgs, Any.text, Any.flat, List.append_assoc] using h1

theorem template_append_left (p s0 : GoString) (ss : List GoString) :
    p ++ template s0 ss = template (p ++ s0) ss := by
  cases ss <;> simp [template, List.append_assoc]

theorem spliced_append_left {α : Type} (p s0 : GoString) (args : List (Any α))
    (ss : List GoString) : p ++ spliced s0 args ss = spliced (p ++ s0) args ss := by
  cases args <;> cases ss <;> simp [spliced, List.append_assoc]

theorem spliced_lits {α : Type} (args : List (Any α)) :
    ∀ (s0 : GoString) (ss : List GoString), (∀ a ∈ args, a.isLit) →
      args.length = ss.length → spliced s0 args ss = template s0 ss := by
  induction args with
  | nil =>
    intro s0 ss _ hlen
    cases ss with
    | nil => simp [spliced, template]
    | cons s ss => simp at hlen
  | cons a as ih =>
    intro s0 ss hl hlen
    cases ss with
    | nil => simp at hlen
    | cons s ss =>
      have ha := hl a (by simp)
      cases a with
      | expr st sa => exact absurd ha (by simp [Any.isLit])
      | lit v =>
        simp only [spliced, template, Any.text]
        rw [ih s ss (fun x hx => hl x (by simp [hx])) (by simpa using hlen)]
        simp [List.append_assoc]

theorem flatArgs_lits {α : Type} (args : List (Any α)) (hl : ∀ a ∈ args, a.isLit) :
    flatArgs args = args := by
  induction args with
  | nil => rfl
  | cons a as ih =>
    have ha := hl a (by simp)
    cases a with
    | expr st sa => exact absurd ha (by simp [Any.isLit])
    | lit v =>
      simp only [flatArgs, Any.flat]
      rw [ih (fun x hx => hl x (by simp [hx]))]
      rfl

theorem joinedMarkers_succ (n : Nat) :
    joinedMarkers (n + 1) = '?' :: (List.replicate n [',', ' ', '?']).flatten := by
  induction n with
  | zero => rfl
  | succ n ih =>
    have h : joinedMarkers (n + 2) = '?' :: ',' :: ' ' :: joinedMarkers (n + 1) := by
      simp [joinedMarkers, List.intercalate, List.replicate_succ, List.intersperse]
    rw [h, ih]
    simp [List.replicate_succ]

theorem markers_joinedMarkers (n : Nat) : markers (joinedMarkers n) = n := by
  cases n with
  | zero => rfl
  | succ n =>
    rw [joinedMarkers_succ]
    induction n with
    | zero => rfl
    | succ n ih =>
      simp only [markers, List.replicate_succ, List.flatten_cons, List.count_cons,
        List.count_append] at ih ⊢
      simp at ih ⊢
      omega

theorem In.loop_eq {α : Type} (rest : List (Any α)) :
    ∀ (b : GoString) (args : List (Any α)),
      In.loop rest b args
        = (b ++ (List.replicate rest.length [',', ' ', '?']).flatten, args ++ rest) := by
  induction rest with
  | nil => intro b args; simp [In.loop]
  | cons item rest ih =>
    intro b args
    rw [In.loop, ih]
    simp [List.replicate_succ, List.append_assoc]

/-- For one item or more, `In` is `SQL` on the joined markers, whichever
branch of its `switch` is taken. -/
theorem In_eq_SQL {α : Type} (i0 : Any α) (rest : List (Any α)) :
    In (i0 :: rest) = SQL (joinedMarkers (rest.length + 1)) (i0 :: rest) := by
  rw [joinedMarkers_succ]
  match rest with
  | [] => rfl
  | [i1] => rfl
  | [i1, i2] => rfl
  | i1 :: i2 :: i3 :: rest =>
    rw [In, In.loop_eq]
    simp

/-- With as many markers as arguments, none of them a fragment, `SQL` returns
the template and the arguments as they are. -/
theorem SQL_lits {α : Type} (stmt : GoString) (args : List (Any α))
    (hl : ∀ a ∈ args, a.isLit) (h : markers stmt = args.length) :
    SQL stmt args = some { Statement := stmt, Args := args } := by
  obtain ⟨s0, ss, h1, h2, _, _, h5⟩ := SQL_of_markers stmt args h
  rw [h5, spliced_lits args s0 ss hl h2, flatArgs_lits args hl, ← h1]

theorem In_lits {α : Type} (vs : List α) :
    In (vs.map Any.lit)
      = some { Statement := joinedMarkers vs.length, Args := vs.map Any.lit } := by
  cases vs with
  | nil => rfl
  | cons v vs =>
    rw [List.map_cons, In_eq_SQL]
    have hl : ∀ a ∈ Any.lit v :: vs.map Any.lit, a.isLit := by
      intro a ha
      rcases List.mem_cons.mp ha with h | h
      · rw [h]; trivial
      · obtain ⟨x, _, hx⟩ := List.mem_map.mp h
        rw [← hx]; trivial
    have hm := SQL_lits (joinedMarkers ((vs.map Any.lit).length + 1))
      (Any.lit v :: vs.map Any.lit) hl (by rw [markers_joinedMarkers]; rfl)
    rw [hm]
    simp

/-! ## Theorems on `In` and on nesting -/

/-- C12: for items `v1..vn` that are not fragments, `n` being any number,
`In` returns the fragment whose text is `n` markers joined by `, ` and whose
arguments are the items in their order; the text is empty for no item, `?`
for one and `?, ?, ?` for three, and the three special cases and the general
branch of `In` all follow this one description. -/
theorem In_joined_markers {α : Type} (vs : List α) :
    In (vs.map Any.lit)
        = some { Statement := joinedMarkers vs.length, Args := vs.map Any.lit } ∧
      joinedMarkers 0 = [] ∧ joinedMarkers 1 = ['?'] ∧
      joinedMarkers 3 = ['?', ',', ' ', '?', ',', ' ', '?'] :=
  ⟨In_lits vs, rfl, rfl, rfl⟩

/-- C13: for a text `pre` without marker, any text `post` and items `v1..vn`
that are not fragments (no item included), `SQL` called on `pre ? post` with
the fragment of `In` as its one argument returns the text `pre`, then `n`
markers joined by `, `, then `post`, with the items in their order as
arguments. -/
theorem In_composes_through_SQL {α : Type} (pre post : GoString) (vs : List α)
    (hpre : '?' ∉ pre) :
    (In (vs.map Any.lit)).bind (fun e => SQL (pre ++ ['?'] ++ post) [e.toAny])
      = some { Statement := pre ++ joinedMarkers vs.length ++ post,
               Args := vs.map Any.lit } := by
  rw [In_lits]
  exact SQL_single_sub pre post _ _ hpre

theorem In_composes_through_SQL_witness :
    '?' ∉ "SELECT * FROM t WHERE id IN (".toList ∧
      (In ([1, 2, 3].map Any.lit)).bind
          (fun e => SQL ("SELECT * FROM t WHERE id IN (".toList ++ ['?'] ++ ")".toList)
            [e.toAny])
        = some { Statement := "SELECT * FROM t WHERE id IN (".toList
                   ++ joinedMarkers [1, 2, 3].length ++ ")".toList,
                 Args := [1, 2, 3].map Any.lit } :=
  ⟨by decide,
    In_composes_through_SQL "SELECT * FROM t WHERE id IN (".toList ")".toList [1, 2, 3]
      (by decide)⟩

/-- C14: for a text `p` without marker, any text `q`, and a template `t` with
exactly `len(as)` markers, `SQL` called on `p ? q` with the fragment
`SQL(t, as...)` as its one argument returns the same fragment, text and
arguments, as `SQL` called on `p t q` with the arguments `as`; neither call
panics. -/
theorem SQL_nesting_associative {α : Type} (p q t : GoString) (as : List (Any α))
    (hp : '?' ∉ p) (ht : markers t = as.length) :
    ∃ e : Expr α,
      SQL (p ++ t ++ q) as = some e ∧
        (SQL t as).bind (fun sub => SQL (p ++ ['?'] ++ q) [sub.toAny]) = some e := by
  obtain ⟨t0, ts, h1, h2, h3, h4, h5⟩ := SQL_of_markers t as ht
  have hp0 : '?' ∉ p ++ t0 := by
    intro hm
    rcases List.mem_append.mp hm with h | h
    · exact hp h
    · exact h3 h
  have hR := SQL_template_rest (p ++ t0) ts q as h2 hp0 h4
  rw [← template_append_left, ← spliced_append_left, ← h1] at hR
  refine ⟨_, hR, ?_⟩
  rw [h5]
  simp only [Option.bind_eq_bind, Option.some_bind, Expr.toAny]
  rw [SQL_single_sub p q _ _ hp]

theorem SQL_nesting_associative_witness :
    '?' ∉ "a ".toList ∧ markers "c ? d".toList = [Any.lit 7].length ∧
      SQL ("a ".toList ++ "c ? d".toList ++ " b".toList) [Any.lit 7]
        = some { Statement := "a c ? d b".toList, Args := [Any.lit 7] } ∧
      ∃ e : Expr Nat,
        SQL ("a ".toList ++ "c ? d".toList ++ " b".toList) [Any.lit 7] = some e ∧
          (SQL "c ? d".toList [Any.lit 7]).bind
              (fun sub => SQL ("a ".toList ++ ['?'] ++ " b".toList) [sub.toAny])
            = some e :=
  ⟨by decide, by decide, rfl,
    SQL_nesting_associative "a ".toList " b".toList "c ? d".toList [Any.lit 7]
      (by decide) (by decide)⟩

/-! ## More theorems on the scanner -/

theorem GoError.Contains_join_head (e x : GoError) (rest : List GoError)
    (h : GoError.Contains e x) : GoError.Contains e (GoError.joinError (x :: rest)) := by
  simp [GoError.Contains, GoError.ContainsAny, h]

theorem Join_head (x : GoError) (c : error) :
    ∃ rest : List GoError, Join [some x, c] = some (GoError.joinError (x :: rest)) := by
  cases c with
  | none => exact ⟨[], by simp [Join]⟩
  | some y => exact ⟨[y], by simp [Join]⟩

/-- C11: when a cursor yields the rows scanned to `v1..v(k-1)` and on the next
row, after a `Next` that returns true and an `Err` check that returns nil,
`scan` fails with `e`, `ScanV` returns for every fuel above `k-1`; its
sequence is exactly `[v1, ..., v(k-1)]`, its error is not nil and has the
wrapped failure and `e` in its tree, the cursor is left as the failing `scan`
left it but for one `Close` call, and exactly one `Close` call has been added
to the record of the calls, provided `scan` adds none. -/
theorem ScanV_keeps_rows_before_failure {σ V : Type} (zero : V) (rows : Rows σ V)
    (scan : V → Row (Traced σ) V → Traced σ → (error × V) × Traced σ)
    (hscan : ∀ v w, (scan v rows.traced.toRow w).2.closes = w.closes)
    (vs : List V) (w wn : Traced σ) (e : GoError)
    (hrows : ScanV.yields zero rows.traced scan vs w wn)
    (hnext : (rows.traced.Next wn).1 = true)
    (herr : (Iter.errCheck rows.traced wn).1 = none)
    (hfail : (scan zero rows.traced.toRow (Iter.errCheck rows.traced wn).2).1.1 = some e) :
    ∀ fuel : Nat, vs.length < fuel →
      ∃ (r : GoError) (w' : Traced σ),
        ScanV zero rows.traced scan fuel w = some ((vs, some r), w') ∧
          w' = (rows.traced.Close
            (scan zero rows.traced.toRow (Iter.errCheck rows.traced wn).2).2).2 ∧
          GoError.Contains (Errorf "failed to scan rows: " e) r ∧
          GoError.Contains e r ∧
          w'.closes = w.closes + 1 := by
  intro fuel hfuel
  obtain ⟨k, rfl⟩ : ∃ k, fuel = vs.length + (k + 1) := ⟨fuel - vs.length - 1, by omega⟩
  have hl := ScanV.loop_yields zero rows.traced scan vs w wn hrows (k + 1) []
  have hcl : (rows.traced.Close
      (scan zero rows.traced.toRow (Iter.errCheck rows.traced wn).2).2).2.closes
      = w.closes + 1 := by
    rw [traced_Close_closes, hscan]
    unfold Iter.errCheck
    rw [traced_Err_closes, traced_Next_closes,
      ScanV.yields_closes zero rows scan hscan vs w wn hrows]
  unfold Iter.errCheck at herr hfail hcl ⊢
  rcases hn : rows.traced.Next wn with ⟨more, w1⟩
  rw [hn] at hnext herr hfail hcl
  simp only at hnext herr hfail hcl
  subst hnext
  rcases he : rows.traced.Err w1 with ⟨err, w2⟩
  rw [he] at herr hfail hcl
  simp only at herr hfail hcl
  subst herr
  rcases hs : scan zero rows.traced.toRow w2 with ⟨⟨serr, v'⟩, w3⟩
  rw [hs] at hfail hcl
  simp only at hfail hcl
  subst hfail
  have hloop : Iter.loop rows.traced.withOut (ScanV.fn zero rows.traced scan) (k + 1)
      (wn, [] ++ vs)
      = some (some (Errorf "failed to scan rows: " e), (w3, vs)) := by
    rw [Iter.loop]
    simp [Rows.withOut, hn, he, ScanV.fn, hs]
  rw [hloop] at hl
  obtain ⟨rest, hj⟩ := Join_head (Errorf "failed to scan rows: " e) (rows.traced.Close w3).1
  have hc : rows.traced.withOut.Close (w3, vs)
      = ((rows.traced.Close w3).1, ((rows.traced.Close w3).2, vs)) := by
    simp [Rows.withOut]
  refine ⟨GoError.joinError (Errorf "failed to scan rows: " e :: rest),
    (rows.traced.Close w3).2, ?_, ?_, ?_, ?_, hcl⟩
  · unfold ScanV
    rw [Iter_of_loop _ _ _ _ _ _ hl, hc]
    simp only [hj, hn, he, hs]
  · simp only [hn, he, hs]
  · exact GoError.Contains_join_head _ _ _ (GoError.Contains_self _)
  · exact GoError.Contains_join_head _ _ _ (by simp [Errorf, GoError.Contains,
      GoError.Contains_self])

theorem ScanV_keeps_rows_before_failure_witness :
    (∀ (v : Nat) (w : Traced (List Nat × Nat)),
        ((fun v (rows : Row (Traced (List Nat × Nat)) Nat) s =>
            match rows.Scan v s with
            | ((_, x), s1) =>
              ((if x = 30 then some (GoError.base 2 "bad value") else none, x), s1))
          v (exampleRows none none).traced.toRow w).2.closes = w.closes) ∧
      ScanV 0 (exampleRows none none).traced
          (fun v rows s =>
            match rows.Scan v s with
            | ((_, x), s1) =>
              ((if x = 30 then some (GoError.base 2 "bad value") else none, x), s1))
          5 ⟨([10, 20, 30, 40], 0), []⟩
        = some (([10, 20],
            some (GoError.joinError
              [Errorf "failed to scan rows: " (GoError.base 2 "bad value")])),
            ⟨([40], 30), [Call.Next, Call.Err, Call.Scan, Call.Next, Call.Err, Call.Scan,
              Call.Next, Call.Err, Call.Scan, Call.Close]⟩) ∧
      ∃ (r : GoError) (w' : Traced (List Nat × Nat)),
        ScanV 0 (exampleRows none none).traced
            (fun v rows s =>
              match rows.Scan v s with
              | ((_, x), s1) =>
                ((if x = 30 then some (GoError.base 2 "bad value") else none, x), s1))
            5 ⟨([10, 20, 30, 40], 0), []⟩
          = some (([10, 20], some r), w') ∧
        w' = ((exampleRows none none).traced.Close
            ⟨([40], 30), [Call.Next, Call.Err, Call.Scan, Call.Next, Call.Err, Call.Scan,
              Call.Next, Call.Err, Call.Scan]⟩).2 ∧
        GoError.Contains (Errorf "failed to scan rows: " (GoError.base 2 "bad value")) r ∧
        GoError.Contains (GoError.base 2 "bad value") r ∧
        w'.closes = (⟨([10, 20, 30, 40], 0), []⟩ : Traced (List Nat × Nat)).closes + 1 :=
  ⟨fun _ _ => by simp [Rows.traced, Traced.closes, List.count_append], rfl,
    ScanV_keeps_rows_before_failure 0 (exampleRows none none)
      (fun v rows s =>
        match rows.Scan v s with
        | ((_, x), s1) =>
          ((if x = 30 then some (GoError.base 2 "bad value") else none, x), s1))
      (fun _ _ => by simp [Rows.traced, Traced.closes, List.count_append])
      [10, 20] ⟨([10, 20, 30, 40], 0), []⟩
      ⟨([30, 40], 20), [Call.Next, Call.Err, Call.Scan, Call.Next, Call.Err, Call.Scan]⟩
      (GoError.base 2 "bad value")
      ⟨rfl, rfl, rfl, rfl, rfl, rfl, rfl⟩ rfl rfl rfl 5 (by decide)⟩

/-! ## Invariants of the fragments built -/

/-- Whatever the template is, when the loop of `SQL` ends it has added the
flattened arguments to `expr.Args`. -/
theorem SQL.loop_args {α : Type} (stmt : GoString) (args : List (Any α)) :
    ∀ (end_ : Int) (b : GoString) (out : List (Any α))
      (r : Int × GoString × List (Any α)),
      SQL.loop stmt args end_ b out = some r → r.2.2 = out ++ flatArgs args := by
  induction args with
  | nil =>
    intro end_ b out r h
    simp only [SQL.loop, Option.some.injEq] at h
    rw [← h]
    simp [flatArgs]
  | cons a as ih =>
    intro end_ b out r h
    rw [SQL.loop] at h
    cases ht : sliceFrom stmt end_ with
    | none => simp [ht] at h
    | some tail =>
      simp only [ht] at h
      cases a with
      | lit v =>
        simp only at h
        cases hp : slice stmt end_ (end_ + IndexByte tail '?' + 1) with
        | none => simp [hp] at h
        | some piece =>
          simp only [hp] at h
          rw [ih _ _ _ r h]
          simp [flatArgs, Any.flat, List.append_assoc]
      | expr st sa =>
        simp only at h
        cases hp : slice stmt end_ (end_ + IndexByte tail '?' + 1 - 1) with
        | none =>
          simp only [hp] at h
          cases h
        | some piece =>
          simp only [hp] at h
          rw [ih _ _ _ r h]
          simp [flatArgs, Any.flat, List.append_assoc]

/-- Whatever the template is, a fragment that `SQL` returns has the flattened
arguments. -/
theorem SQL_args_of_some {α : Type} (stmt : GoString) (args : List (Any α)) (e : Expr α)
    (h : SQL stmt args = some e) : e.Args = flatArgs args := by
  unfold SQL at h
  split at h
  · rename_i h0
    have hargs : args = [] := List.eq_nil_of_length_eq_zero h0
    simp only [Option.some.injEq] at h
    rw [← h, hargs]
    rfl
  · cases hl : SQL.loop stmt args 0 [] [] with
    | none => simp [hl] at h
    | some r =>
      obtain ⟨end_, b, exprArgs⟩ := r
      have ha := SQL.loop_args stmt args 0 [] [] _ hl
      simp only [hl] at h
      cases ht : sliceFrom stmt end_ with
      | none => simp [ht] at h
      | some tail =>
        simp only [ht, Option.some.injEq] at h
        rw [← h]
        simpa using ha

theorem In_args_of_some {α : Type} (items : List (Any α)) (e : Expr α)
    (h : In items = some e) : e.Args = flatArgs items := by
  cases items with
  | nil =>
    simp only [In, Option.some.injEq] at h
    rw [← h]
    rfl
  | cons i0 rest =>
    rw [In_eq_SQL] at h
    exact SQL_args_of_some _ _ e h

theorem flatArgs_isLit {α : Type} (args : List (Any α))
    (h : ∀ st sa, Any.expr st sa ∈ args → ∀ x ∈ sa, x.isLit) :
    ∀ x ∈ flatArgs args, x.isLit := by
  induction args with
  | nil => intro x hx; simp [flatArgs] at hx
  | cons a as ih =>
    intro x hx
    simp only [flatArgs, List.mem_append] at hx
    rcases hx with hx | hx
    · cases a with
      | lit v =>
        simp only [Any.flat, List.mem_singleton] at hx
        rw [hx]; trivial
      | expr st sa =>
        exact h st sa (by simp) x hx
    · exact ih (fun st sa hm => h st sa (by simp [hm])) x hx

theorem Built_isLit {α : Type} (e : Expr α) (h : Built e) : ∀ x ∈ e.Args, x.isLit := by
  induction h with
  | sql stmt args e _ hs ih =>
    rw [SQL_args_of_some stmt args e hs]
    exact flatArgs_isLit args ih
  | list items e _ hs ih =>
    rw [In_args_of_some items e hs]
    exact flatArgs_isLit items ih

/-- C15: when no sub-fragment among the arguments of a call of `SQL` has a
fragment among its own arguments, the fragment returned has no fragment among
its arguments; and so no fragment obtained by a finite composition of `SQL`
and `In` that starts from values that are not fragments has a fragment among
its arguments. -/
theorem SQL_fully_flattened {α : Type} :
    (∀ (stmt : GoString) (args : List (Any α)) (e : Expr α),
        (∀ st sa, Any.expr st sa ∈ args → ∀ x ∈ sa, x.isLit) →
        SQL stmt args = some e → ∀ x ∈ e.Args, x.isLit) ∧
      (∀ e : Expr α, Built e → ∀ x ∈ e.Args, x.isLit) := by
  refine ⟨fun stmt args e hargs hs => ?_, Built_isLit⟩
  rw [SQL_args_of_some stmt args e hs]
  exact flatArgs_isLit args hargs

theorem SQL_fully_flattened_witness :
    (∀ st sa, Any.expr st sa ∈ [Any.lit 7, Any.expr "c ? d".toList [Any.lit 5]] →
        ∀ x ∈ sa, x.isLit) ∧
      SQL "a ? b ?".toList [Any.lit 7, Any.expr "c ? d".toList [Any.lit 5]]
        = some { Statement := "a ? b c ? d".toList, Args := [Any.lit 7, Any.lit 5] } ∧
      (∀ x ∈ ({ Statement := "a ? b c ? d".toList, Args := [Any.lit 7, Any.lit 5] }
          : Expr Nat).Args, x.isLit) ∧
      Built ({ Statement := "a ? b c ? d".toList, Args := [Any.lit 7, Any.lit 5] }
          : Expr Nat) :=
  have hargs : ∀ st sa,
      Any.expr st sa ∈ [Any.lit 7, Any.expr "c ? d".toList [Any.lit 5]] →
        ∀ x ∈ sa, x.isLit := by
    intro st sa hm x hx
    simp only [List.mem_cons, List.mem_singleton, Any.expr.injEq, List.not_mem_nil,
      or_false, false_or, reduceCtorEq] at hm
    rw [hm.2] at hx
    simp only [List.mem_singleton] at hx
    rw [hx]; trivial
  ⟨hargs, rfl,
    (SQL_fully_flattened (α := Nat)).1 "a ? b ?".toList
      [Any.lit 7, Any.expr "c ? d".toList [Any.lit 5]] _ hargs rfl,
    Built.sql "a ? b ?".toList [Any.lit 7, Any.expr "c ? d".toList [Any.lit 5]] _
      (fun st sa hm => by
        simp only [List.mem_cons, List.mem_singleton, Any.expr.injEq, List.not_mem_nil,
          or_false, false_or, reduceCtorEq] at hm
        rw [hm.1, hm.2]
        exact Built.sql "c ? d".toList [Any.lit 5] _ (fun st sa hm => by simp at hm) rfl)
      rfl⟩

/-- C16, as stated, fails: `SQL` called with the template `a ? b` and no
argument returns the template unchanged, one marker with no argument. -/
theorem SQL_marker_count_any_template_counterexample :
    ∃ e : Expr Nat, SQL "a ? b".toList [] = some e ∧ markers e.Statement = 1 ∧
      e.Args.length = 0 ∧ markers e.Statement ≠ e.Args.length :=
  ⟨{ Statement := "a ? b".toList, Args := [] }, rfl, by decide, rfl, by decide⟩

/-- C16, amended: for a template with exactly `len(args)` markers, `SQL`
returns a fragment with as many markers in its text as arguments, and so does
`In` for any items, provided each sub-fragment among the arguments or items
has as many markers in its text as arguments. -/
theorem builder_marker_count_under_contract {α : Type} :
    (∀ (stmt : GoString) (args : List (Any α)),
        markers stmt = args.length → (∀ a ∈ args, a.balanced) →
        ∃ e : Expr α, SQL stmt args = some e ∧ markers e.Statement = e.Args.length) ∧
      (∀ items : List (Any α), (∀ a ∈ items, a.balanced) →
        ∃ e : Expr α, In items = some e ∧ markers e.Statement = e.Args.length) := by
  have hsql : ∀ (stmt : GoString) (args : List (Any α)),
      markers stmt = args.length → (∀ a ∈ args, a.balanced) →
      ∃ e : Expr α, SQL stmt args = some e ∧ markers e.Statement = e.Args.length := by
    intro stmt args h hb
    obtain ⟨s0, ss, _, h2, h3, h4, h5⟩ := SQL_of_markers stmt args h
    exact ⟨_, h5, markers_spliced args s0 ss h2 h3 h4 hb⟩
  refine ⟨hsql, fun items hb => ?_⟩
  cases items with
  | nil => exact ⟨_, rfl, rfl⟩
  | cons i0 rest =>
    rw [In_eq_SQL]
    exact hsql _ _ (by rw [markers_joinedMarkers]; rfl) hb

theorem builder_marker_count_under_contract_witness :
    markers "a ? b".toList = [Any.expr "c ? d".toList [Any.lit 1]].length ∧
      (∀ a ∈ [Any.expr "c ? d".toList [Any.lit 1]], a.balanced) ∧
      (∃ e : Expr Nat, SQL "a ? b".toList [Any.expr "c ? d".toList [Any.lit 1]] = some e ∧
        markers e.Statement = e.Args.length) ∧
      (∀ a ∈ [Any.lit 1, Any.lit 2, Any.lit 3, Any.lit 4], a.balanced) ∧
      ∃ e : Expr Nat, In [Any.lit 1, Any.lit 2, Any.lit 3, Any.lit 4] = some e ∧
        markers e.Statement = e.Args.length :=
  ⟨by decide, by simp [Any.balanced, markers],
    (builder_marker_count_under_contract (α := Nat)).1 "a ? b".toList
      [Any.expr "c ? d".toList [Any.lit 1]] (by decide) (by simp [Any.balanced, markers]),
    by simp [Any.balanced],
    (builder_marker_count_under_contract (α := Nat)).2
      [Any.lit 1, Any.lit 2, Any.lit 3, Any.lit 4] (by simp [Any.balanced])⟩

/-! ## Counting the calls of `Iter` -/

theorem withCount_Next {σ V : Type} (rows : Rows σ V) (s : σ) (c : Nat) :
    rows.withCount.Next (s, c) = ((rows.Next s).1, ((rows.Next s).2, c)) := rfl

theorem withCount_Err {σ V : Type} (rows : Rows σ V) (s : σ) (c : Nat) :
    rows.withCount.Err (s, c) = ((rows.Err s).1, ((rows.Err s).2, c)) := rfl

theorem withCount_Close {σ V : Type} (rows : Rows σ V) (s : σ) (c : Nat) :
    rows.withCount.Close (s, c) = ((rows.Close s).1, ((rows.Close s).2, c)) := rfl

theorem withCount_errCheck {σ V : Type} (rows : Rows σ V) (s : σ) (c : Nat) :
    Iter.errCheck rows.withCount (s, c)
      = ((Iter.errCheck rows s).1, ((Iter.errCheck rows s).2, c)) := rfl

theorem withCount_callback {σ V : Type} (rows : Rows σ V) (fn : σ → error × σ) (s : σ)
    (c : Nat) :
    Iter.callback rows.withCount (countedFn fn) (s, c)
      = ((Iter.callback rows fn s).1, ((Iter.callback rows fn s).2, c + 1)) := rfl

theorem withCount_afterRows {σ V : Type} (rows : Rows σ V) (fn : σ → error × σ) :
    ∀ (n : Nat) (s : σ) (c : Nat),
      Iter.afterRows rows.withCount (countedFn fn) n (s, c)
        = (Iter.afterRows rows fn n s, c + n) := by
  intro n
  induction n with
  | zero => intro s c; rfl
  | succ n ih =>
    intro s c
    have h : Iter.afterRow rows.withCount (countedFn fn) (s, c)
        = (Iter.afterRow rows fn s, c + 1) := rfl
    rw [Iter.afterRows, h, ih, Iter.afterRows]
    congr 1
    omega

theorem withCount_okRows {σ V : Type} (rows : Rows σ V) (fn : σ → error × σ) :
    ∀ (n : Nat) (s : σ) (c : Nat), Iter.okRows rows fn n s →
      Iter.okRows rows.withCount (countedFn fn) n (s, c) := by
  intro n
  induction n with
  | zero => intro s c _; trivial
  | succ n ih =>
    intro s c h
    obtain ⟨⟨h1, h2, h3⟩, h4⟩ := h
    refine ⟨⟨?_, ?_, ?_⟩, ?_⟩
    · rw [withCount_Next]; exact h1
    · rw [withCount_errCheck]; exact h2
    · rw [withCount_callback]; exact h3
    · have h : Iter.afterRow rows.withCount (countedFn fn) (s, c)
          = (Iter.afterRow rows fn s, c + 1) := rfl
      rw [h]
      exact ih _ _ h4

theorem traced_Next_nexts {σ V : Type} (rows : Rows σ V) (w : Traced σ) :
    (rows.traced.Next w).2.nexts = w.nexts + 1 := by
  simp [Rows.traced, Traced.nexts, List.count_append]

theorem traced_Err_nexts {σ V : Type} (rows : Rows σ V) (w : Traced σ) :
    (rows.traced.Err w).2.nexts = w.nexts := by
  simp [Rows.traced, Traced.nexts, List.count_append]

theorem traced_Close_nexts {σ V : Type} (rows : Rows σ V) (w : Traced σ) :
    (rows.traced.Close w).2.nexts = w.nexts := by
  simp [Rows.traced, Traced.nexts, List.count_append]

theorem afterRows_nexts {σ V : Type} (rows : Rows σ V) (fn : Traced σ → error × Traced σ)
    (hfn : ∀ w, (fn w).2.nexts = w.nexts) :
    ∀ (n : Nat) (w : Traced σ),
      (Iter.afterRows rows.traced fn n w).nexts = w.nexts + n := by
  intro n
  induction n with
  | zero => intro w; rfl
  | succ n ih =>
    intro w
    rw [Iter.afterRows, ih]
    unfold Iter.afterRow Iter.callback Iter.errCheck
    rw [hfn, traced_Err_nexts, traced_Next_nexts]
    omega

/-- C17: when `n` rounds pass without fault and in the next one the `Err`
check that follows `Next` returns an error `e` (after a `Next` that returned
true, and just as well after one that returned false), `Iter` returns for
every fuel above `n` with `e` in the tree of its error; the callback has then
been invoked `n` times in all, once for each earlier row and not for this one,
and `n + 1` calls of `Next` have been recorded, none after the failed check,
provided the callback records none itself. -/
theorem Iter_deferred_error_aborts {σ V : Type} (rows : Rows σ V)
    (fn : Traced σ → error × Traced σ) (hfn : ∀ w, (fn w).2.nexts = w.nexts)
    (n : Nat) (w : Traced σ) (c : Nat) (e : GoError)
    (hok : Iter.okRows rows.traced fn n w)
    (herr : (Iter.errCheck rows.traced (Iter.afterRows rows.traced fn n w)).1 = some e) :
    ∀ fuel : Nat, n < fuel →
      ∃ (r : GoError) (w' : Traced σ),
        Iter rows.traced.withCount (countedFn fn) fuel (w, c) = some (some r, (w', c + n)) ∧
          w'.nexts = w.nexts + (n + 1) ∧
          GoError.Contains e r := by
  intro fuel hfuel
  obtain ⟨k, rfl⟩ : ∃ k, fuel = n + (k + 1) := ⟨fuel - n - 1, by omega⟩
  have hl := Iter.loop_okRows rows.traced.withCount (countedFn fn) n (w, c)
    (withCount_okRows rows.traced fn n w c hok) (k + 1)
  rw [withCount_afterRows] at hl
  have herr' : (Iter.errCheck rows.traced.withCount
      (Iter.afterRows rows.traced fn n w, c + n)).1 = some e := by
    rw [withCount_errCheck]; exact herr
  rw [Iter.loop_errCheck rows.traced.withCount (countedFn fn) _ e herr' k,
    withCount_errCheck] at hl
  obtain ⟨rest, hj⟩ := Join_head e
    (rows.traced.Close (Iter.errCheck rows.traced (Iter.afterRows rows.traced fn n w)).2).1
  refine ⟨GoError.joinError (e :: rest),
    (rows.traced.Close (Iter.errCheck rows.traced (Iter.afterRows rows.traced fn n w)).2).2,
    ?_, ?_, GoError.Contains_join_head _ _ _ (GoError.Contains_self _)⟩
  · rw [Iter_of_loop _ _ _ _ _ _ hl, withCount_Close, hj]
  · rw [traced_Close_nexts]
    unfold Iter.errCheck
    rw [traced_Err_nexts, traced_Next_nexts, afterRows_nexts rows fn hfn]
    omega

theorem Iter_deferred_error_aborts_witness :
    (∀ w : Traced (List Nat × Nat),
        ((fun w => (none, w)) w : error × Traced (List Nat × Nat)).2.nexts = w.nexts) ∧
      Iter.okRows (exampleRows (some (GoError.base 1 "bad connection")) none).traced
        (fun w => (none, w)) 1 ⟨([10, 20], 0), []⟩ ∧
      Iter (exampleRows (some (GoError.base 1 "bad connection")) none).traced.withCount
          (countedFn (fun w => (none, w))) 5 (⟨([10, 20], 0), []⟩, 0)
        = some (some (GoError.joinError [GoError.base 1 "bad connection"]),
            (⟨([], 20), [Call.Next, Call.Err, Call.Next, Call.Err, Call.Close]⟩, 1)) ∧
      ∃ (r : GoError) (w' : Traced (List Nat × Nat)),
        Iter (exampleRows (some (GoError.base 1 "bad connection")) none).traced.withCount
            (countedFn (fun w => (none, w))) 5 (⟨([10, 20], 0), []⟩, 0)
          = some (some r, (w', 0 + 1)) ∧
        w'.nexts = (⟨([10, 20], 0), []⟩ : Traced (List Nat × Nat)).nexts + (1 + 1) ∧
        GoError.Contains (GoError.base 1 "bad connection") r :=
  ⟨fun _ => rfl, ⟨⟨rfl, rfl, rfl⟩, trivial⟩, rfl,
    Iter_deferred_error_aborts (exampleRows (some (GoError.base 1 "bad connection")) none)
      (fun w => (none, w)) (fun _ => rfl) 1 ⟨([10, 20], 0), []⟩ 0
      (GoError.base 1 "bad connection") ⟨⟨rfl, rfl, rfl⟩, trivial⟩ rfl 5 (by decide)⟩

/-! ## When `SQL` panics -/

theorem first_marker_split (tail : GoString) :
    '?' ∉ tail ∨ ∃ s0 t, tail = s0 ++ '?' :: t ∧ '?' ∉ s0 := by
  obtain ⟨s0, ss, h1, _, h3, _⟩ := exists_template tail
  cases ss with
  | nil =>
    left
    rw [h1]
    simpa [template] using h3
  | cons s ss =>
    right
    exact ⟨s0, template s ss, by rw [h1]; simp [template], h3⟩

theorem slice_none_of_lt (s : GoString) (lo hi : Int) (h : hi < lo) : slice s lo hi = none := by
  unfold slice
  rw [if_neg]
  omega

theorem slice_empty_at (pre tail : GoString) :
    slice (pre ++ tail) pre.length pre.length = some [] := by
  have h := slice_mid pre [] tail
  simpa using h

/-- The loop of `SQL` started after the text `pre` with the text `tail` ahead:
it panics exactly when some argument that remains is a sub-fragment found at
an index `i` (counted from the current argument) for which `tail` has fewer
than `i + 1` markers; and when it ends, `end` is a position of the text. -/
theorem SQL.loop_none_iff {α : Type} (args : List (Any α)) :
    ∀ (pre tail b : GoString) (out : List (Any α)),
      (SQL.loop (pre ++ tail) args pre.length b out = none ↔
          ∃ (i : Nat) (st : GoString) (sa : List (Any α)),
            args[i]? = some (Any.expr st sa) ∧ markers tail < i + 1) ∧
        (∀ r, SQL.loop (pre ++ tail) args pre.length b out = some r →
          ∃ pre' tail', pre ++ tail = pre' ++ tail' ∧ r.1 = (pre'.length : Int)) := by
  induction args with
  | nil =>
    intro pre tail b out
    refine ⟨⟨fun h => by simp [SQL.loop] at h, fun ⟨i, st, sa, h, _⟩ => by simp at h⟩, ?_⟩
    intro r h
    simp only [SQL.loop, Option.some.injEq] at h
    exact ⟨pre, tail, rfl, by rw [← h]⟩
  | cons a as ih =>
    intro pre tail b out
    have htail : sliceFrom (pre ++ tail) pre.length = some tail := sliceFrom_append pre tail
    rcases first_marker_split tail with hno | ⟨s0, t, hsplit, h0⟩
    · -- no marker is left
      have hidx : IndexByte tail '?' = -1 := IndexByte_absent tail '?' hno
      have hm : markers tail = 0 := List.count_eq_zero_of_not_mem hno
      have hend : (pre.length : Int) + -1 + 1 = pre.length := by omega
      cases a with
      | expr st sa =>
        have hsl : slice (pre ++ tail) pre.length ((pre.length : Int) + -1 + 1 - 1) = none :=
          slice_none_of_lt _ _ _ (by omega)
        have hl : SQL.loop (pre ++ tail) (Any.expr st sa :: as) pre.length b out = none := by
          rw [SQL.loop, htail]
          simp only [hidx, hsl]
        refine ⟨⟨fun _ => ⟨0, st, sa, by simp, by omega⟩, fun _ => hl⟩, ?_⟩
        intro r h
        rw [hl] at h
        cases h
      | lit v =>
        have hsl : slice (pre ++ tail) pre.length ((pre.length : Int) + -1 + 1) = some [] := by
          rw [hend]; exact slice_empty_at pre tail
        have hl : SQL.loop (pre ++ tail) (Any.lit v :: as) pre.length b out
            = SQL.loop (pre ++ tail) as pre.length (b ++ []) (out ++ [Any.lit v]) := by
          rw [SQL.loop, htail]
          simp only [hidx, hsl]
          rw [hend]
        obtain ⟨ih1, ih2⟩ := ih pre tail (b ++ []) (out ++ [Any.lit v])
        rw [hl]
        refine ⟨ih1.trans ⟨?_, ?_⟩, ih2⟩
        · rintro ⟨i, st, sa, h1, _⟩
          exact ⟨i + 1, st, sa, by simpa using h1, by omega⟩
        · rintro ⟨i, st, sa, h1, _⟩
          cases i with
          | zero => simp at h1
          | succ j => exact ⟨j, st, sa, by simpa using h1, by omega⟩
    · -- the next marker stands after `s0`
      subst hsplit
      have hidx : IndexByte (s0 ++ '?' :: t) '?' = s0.length :=
        IndexByte_append_cons s0 t '?' h0
      have hm : markers (s0 ++ '?' :: t) = markers t + 1 := by
        simp [markers, List.count_append, List.count_eq_zero_of_not_mem h0]
      have hstmt : pre ++ (s0 ++ '?' :: t) = (pre ++ s0 ++ ['?']) ++ t := by
        simp [List.append_assoc]
      have hend : (pre.length : Int) + s0.length + 1 = ((pre ++ s0 ++ ['?']).length : Int) := by
        simp only [List.length_append, List.length_singleton, Nat.cast_add, Nat.cast_one]
      have hsub : slice (pre ++ (s0 ++ '?' :: t)) pre.length
          ((pre.length : Int) + s0.length + 1 - 1) = some s0 := by
        have h := slice_mid pre s0 ('?' :: t)
        have e : (pre.length : Int) + s0.length + 1 - 1 = pre.length + s0.length := by omega
        rw [e]
        simpa [List.append_assoc] using h
      have hlit : slice (pre ++ (s0 ++ '?' :: t)) pre.length
          ((pre.length : Int) + s0.length + 1) = some (s0 ++ ['?']) := by
        have h := slice_mid pre (s0 ++ ['?']) t
        simp only [List.length_append, List.length_singleton, Nat.cast_add,
          Nat.cast_one] at h
        rw [← add_assoc] at h
        simpa [List.append_assoc] using h
      have hiff : ∀ x : Any α,
          ((∃ (i : Nat) (st : GoString) (sa : List (Any α)),
              as[i]? = some (Any.expr st sa) ∧ markers t < i + 1) ↔
            ∃ (i : Nat) (st : GoString) (sa : List (Any α)),
              (x :: as)[i]? = some (Any.expr st sa) ∧ markers (s0 ++ '?' :: t) < i + 1) := by
        intro x
        constructor
        · rintro ⟨i, st, sa, h1, h2⟩
          exact ⟨i + 1, st, sa, by simpa using h1, by omega⟩
        · rintro ⟨i, st, sa, h1, h2⟩
          cases i with
          | zero => omega
          | succ j => exact ⟨j, st, sa, by simpa using h1, by omega⟩
      cases a with
      | expr st sa =>
        have hl : SQL.loop (pre ++ (s0 ++ '?' :: t)) (Any.expr st sa :: as) pre.length b out
            = SQL.loop ((pre ++ s0 ++ ['?']) ++ t) as ((pre ++ s0 ++ ['?']).length : Int)
                (b ++ s0 ++ st) (out ++ sa) := by
          rw [SQL.loop, htail]
          simp only [hidx, hsub]
          rw [hend, hstmt]
        obtain ⟨ih1, ih2⟩ := ih (pre ++ s0 ++ ['?']) t (b ++ s0 ++ st) (out ++ sa)
        rw [hl]
        refine ⟨ih1.trans (hiff _), ?_⟩
        intro r h
        rw [hstmt]
        exact ih2 r h
      | lit v =>
        have hl : SQL.loop (pre ++ (s0 ++ '?' :: t)) (Any.lit v :: as) pre.length b out
            = SQL.loop ((pre ++ s0 ++ ['?']) ++ t) as ((pre ++ s0 ++ ['?']).length : Int)
                (b ++ (s0 ++ ['?'])) (out ++ [Any.lit v]) := by
          rw [SQL.loop, htail]
          simp only [hidx, hlit]
          rw [hend, hstmt]
        obtain ⟨ih1, ih2⟩ := ih (pre ++ s0 ++ ['?']) t (b ++ (s0 ++ ['?'])) (out ++ [Any.lit v])
        rw [hl]
        refine ⟨ih1.trans (hiff _), ?_⟩
        intro r h
        rw [hstmt]
        exact ih2 r h

theorem SQL_none_iff {α : Type} (stmt : GoString) (args : List (Any α)) :
    SQL stmt args = none ↔
      ∃ (i : Nat) (st : GoString) (sa : List (Any α)),
        args[i]? = some (Any.expr st sa) ∧ markers stmt < i + 1 := by
  obtain ⟨h1, h2⟩ := SQL.loop_none_iff args [] stmt [] []
  simp only [List.nil_append, List.length_nil, Nat.cast_zero] at h1 h2
  unfold SQL
  split
  · rename_i h0
    have hargs : args = [] := List.eq_nil_of_length_eq_zero h0
    subst hargs
    simp
  · rw [← h1]
    cases hl : SQL.loop stmt args 0 [] [] with
    | none => simp
    | some r =>
      obtain ⟨pre', tail', hs, he⟩ := h2 r hl
      obtain ⟨end_, b, exprArgs⟩ := r
      simp only at he
      have ht : sliceFrom stmt end_ = some tail' := by
        rw [hs, he]; exact sliceFrom_append pre' tail'
      simp [ht]

/-- C20: `SQL` panics on an out-of-range slice exactly when some argument at
an index `i`, counted from 0, is a sub-fragment while the template has fewer
than `i + 1` markers.  So it does not panic when the template has at least
`len(args)` markers, nor when no argument is a sub-fragment; a value that is
not a fragment and finds no marker is added to the arguments and no text is
taken for it, as for the template `x` and the argument 5. -/
theorem SQL_panics_iff_unmatched_sub {α : Type} (stmt : GoString) (args : List (Any α)) :
    (SQL stmt args = none ↔
        ∃ (i : Nat) (st : GoString) (sa : List (Any α)),
          args[i]? = some (Any.expr st sa) ∧ markers stmt < i + 1) ∧
      (args.length ≤ markers stmt → SQL stmt args ≠ none) ∧
      ((∀ a ∈ args, a.isLit) → SQL stmt args ≠ none) ∧
      SQL ['x'] [(Any.lit 5 : Any Nat)] = some { Statement := ['x'], Args := [Any.lit 5] } := by
  refine ⟨SQL_none_iff stmt args, ?_, ?_, rfl⟩
  · intro hle hnone
    obtain ⟨i, st, sa, h1, h2⟩ := (SQL_none_iff stmt args).mp hnone
    have hi : i < args.length := by
      rcases Nat.lt_or_ge i args.length with h | h
      · exact h
      · rw [List.getElem?_eq_none h] at h1
        cases h1
    omega
  · intro hl hnone
    obtain ⟨i, st, sa, h1, _⟩ := (SQL_none_iff stmt args).mp hnone
    have hmem : Any.expr st sa ∈ args := List.getElem?_mem h1
    exact hl _ hmem

theorem SQL_panics_iff_unmatched_sub_witness :
    SQL "a ? b".toList [Any.lit 1, Any.expr "c".toList ([] : List (Any Nat))] = none ∧
      ([Any.lit 1, Any.lit 2] : List (Any Nat)).length ≤ markers "a ? b ? c ?".toList ∧
      SQL "a ? b ? c ?".toList [(Any.lit 1 : Any Nat), Any.lit 2] ≠ none ∧
      (∀ a ∈ ([Any.lit 1, Any.lit 2] : List (Any Nat)), a.isLit) ∧
      SQL "a ? b".toList [(Any.lit 1 : Any Nat), Any.lit 2] ≠ none :=
  ⟨(SQL_panics_iff_unmatched_sub "a ? b".toList
      [Any.lit 1, Any.expr "c".toList ([] : List (Any Nat))]).1.mpr
      ⟨1, "c".toList, [], rfl, by decide⟩,
    by decide,
    (SQL_panics_iff_unmatched_sub "a ? b ? c ?".toList [(Any.lit 1 : Any Nat), Any.lit 2]).2.1
      (by decide),
    by simp [Any.isLit],
    (SQL_panics_iff_unmatched_sub "a ? b".toList [(Any.lit 1 : Any Nat), Any.lit 2]).2.2.1
      (by simp [Any.isLit])⟩

/-! ## One round of the loop of `SQL`, and a text put before the template -/

theorem SQL.loop_step_expr_none {α : Type} (pre tail st : GoString) (sa as : List (Any α))
    (b : GoString) (out : List (Any α)) (h : '?' ∉ tail) :
    SQL.loop (pre ++ tail) (Any.expr st sa :: as) pre.length b out = none := by
  have hsl : slice (pre ++ tail) pre.length ((pre.length : Int) + -1 + 1 - 1) = none :=
    slice_none_of_lt _ _ _ (by omega)
  rw [SQL.loop, sliceFrom_append]
  simp only [IndexByte_absent tail '?' h, hsl]

theorem SQL.loop_step_lit_none {α : Type} (pre tail : GoString) (v : α) (as : List (Any α))
    (b : GoString) (out : List (Any α)) (h : '?' ∉ tail) :
    SQL.loop (pre ++ tail) (Any.lit v :: as) pre.length b out
      = SQL.loop (pre ++ tail) as pre.length b (out ++ [Any.lit v]) := by
  have hend : (pre.length : Int) + -1 + 1 = pre.length := by omega
  have hsl : slice (pre ++ tail) pre.length ((pre.length : Int) + -1 + 1) = some [] := by
    rw [hend]; exact slice_empty_at pre tail
  rw [SQL.loop, sliceFrom_append]
  simp only [IndexByte_absent tail '?' h, hsl]
  rw [hend, List.append_nil]

theorem SQL.loop_step_expr {α : Type} (pre s0 t st : GoString) (sa as : List (Any α))
    (b : GoString) (out : List (Any α)) (h0 : '?' ∉ s0) :
    SQL.loop (pre ++ (s0 ++ '?' :: t)) (Any.expr st sa :: as) pre.length b out
      = SQL.loop ((pre ++ s0 ++ ['?']) ++ t) as ((pre ++ s0 ++ ['?']).length : Int)
          (b ++ s0 ++ st) (out ++ sa) := by
  have hstmt : pre ++ (s0 ++ '?' :: t) = (pre ++ s0 ++ ['?']) ++ t := by
    simp [List.append_assoc]
  have hend : (pre.length : Int) + s0.length + 1 = ((pre ++ s0 ++ ['?']).length : Int) := by
    simp only [List.length_append, List.length_singleton, Nat.cast_add, Nat.cast_one]
  have hsub : slice (pre ++ (s0 ++ '?' :: t)) pre.length
      ((pre.length : Int) + s0.length + 1 - 1) = some s0 := by
    have h := slice_mid pre s0 ('?' :: t)
    have e : (pre.length : Int) + s0.length + 1 - 1 = pre.length + s0.length := by omega
    rw [e]
    simpa [List.append_assoc] using h
  rw [SQL.loop, sliceFrom_append]
  simp only [IndexByte_append_cons s0 t '?' h0, hsub]
  rw [hend, hstmt]

theorem SQL.loop_step_lit {α : Type} (pre s0 t : GoString) (v : α) (as : List (Any α))
    (b : GoString) (out : List (Any α)) (h0 : '?' ∉ s0) :
    SQL.loop (pre ++ (s0 ++ '?' :: t)) (Any.lit v :: as) pre.length b out
      = SQL.loop ((pre ++ s0 ++ ['?']) ++ t) as ((pre ++ s0 ++ ['?']).length : Int)
          (b ++ (s0 ++ ['?'])) (out ++ [Any.lit v]) := by
  have hstmt : pre ++ (s0 ++ '?' :: t) = (pre ++ s0 ++ ['?']) ++ t := by
    simp [List.append_assoc]
  have hend : (pre.length : Int) + s0.length + 1 = ((pre ++ s0 ++ ['?']).length : Int) := by
    simp only [List.length_append, List.length_singleton, Nat.cast_add, Nat.cast_one]
  have hlit : slice (pre ++ (s0 ++ '?' :: t)) pre.length
      ((pre.length : Int) + s0.length + 1) = some (s0 ++ ['?']) := by
    have h := slice_mid pre (s0 ++ ['?']) t
    simp only [List.length_append, List.length_singleton, Nat.cast_add,
      Nat.cast_one] at h
    rw [← add_assoc] at h
    simpa [List.append_assoc] using h
  rw [SQL.loop, sliceFrom_append]
  simp only [IndexByte_append_cons s0 t '?' h0, hlit]
  rw [hend, hstmt]

theorem SQL.run_nil {α : Type} (pre tail b : GoString) (out : List (Any α)) :
    SQL.run (pre ++ tail) ([] : List (Any α)) pre.length b out = some (b ++ tail, out) := by
  simp [SQL.run, SQL.loop, sliceFrom_append]

theorem SQL.run_step_expr_none {α : Type} (pre tail st : GoString) (sa as : List (Any α))
    (b : GoString) (out : List (Any α)) (h : '?' ∉ tail) :
    SQL.run (pre ++ tail) (Any.expr st sa :: as) pre.length b out = none := by
  unfold SQL.run
  rw [SQL.loop_step_expr_none pre tail st sa as b out h]

theorem SQL.run_step_lit_none {α : Type} (pre tail : GoString) (v : α) (as : List (Any α))
    (b : GoString) (out : List (Any α)) (h : '?' ∉ tail) :
    SQL.run (pre ++ tail) (Any.lit v :: as) pre.length b out
      = SQL.run (pre ++ tail) as pre.length b (out ++ [Any.lit v]) := by
  unfold SQL.run
  rw [SQL.loop_step_lit_none pre tail v as b out h]

theorem SQL.run_step_expr {α : Type} (pre s0 t st : GoString) (sa as : List (Any α))
    (b : GoString) (out : List (Any α)) (h0 : '?' ∉ s0) :
    SQL.run (pre ++ (s0 ++ '?' :: t)) (Any.expr st sa :: as) pre.length b out
      = SQL.run ((pre ++ s0 ++ ['?']) ++ t) as ((pre ++ s0 ++ ['?']).length : Int)
          (b ++ s0 ++ st) (out ++ sa) := by
  have hstmt : pre ++ (s0 ++ '?' :: t) = (pre ++ s0 ++ ['?']) ++ t := by
    simp [List.append_assoc]
  unfold SQL.run
  rw [SQL.loop_step_expr pre s0 t st sa as b out h0, hstmt]

theorem SQL.run_step_lit {α : Type} (pre s0 t : GoString) (v : α) (as : List (Any α))
    (b : GoString) (out : List (Any α)) (h0 : '?' ∉ s0) :
    SQL.run (pre ++ (s0 ++ '?' :: t)) (Any.lit v :: as) pre.length b out
      = SQL.run ((pre ++ s0 ++ ['?']) ++ t) as ((pre ++ s0 ++ ['?']).length : Int)
          (b ++ (s0 ++ ['?'])) (out ++ [Any.lit v]) := by
  have hstmt : pre ++ (s0 ++ '?' :: t) = (pre ++ s0 ++ ['?']) ++ t := by
    simp [List.append_assoc]
  unfold SQL.run
  rw [SQL.loop_step_lit pre s0 t v as b out h0, hstmt]

/-- The loop of `SQL` does not read the builder: a text that the builder
holds at the start stands before everything written later. -/
theorem SQL.loop_builder {α : Type} (stmt c : GoString) (args : List (Any α)) :
    ∀ (end_ : Int) (b : GoString) (out : List (Any α)),
      SQL.loop stmt args end_ (c ++ b) out
        = (SQL.loop stmt args end_ b out).map (fun r => (r.1, c ++ r.2.1, r.2.2)) := by
  induction args with
  | nil => intro end_ b out; simp [SQL.loop]
  | cons a as ih =>
    intro end_ b out
    rw [SQL.loop, SQL.loop]
    cases sliceFrom stmt end_ with
    | none => rfl
    | some tail =>
      cases a with
      | lit v =>
        simp only
        cases slice stmt end_ (end_ + IndexByte tail '?' + 1) with
        | none => rfl
        | some piece =>
          simp only
          rw [List.append_assoc, ih]
      | expr st sa =>
        simp only
        cases slice stmt end_ (end_ + IndexByte tail '?' + 1 - 1) with
        | none => rfl
        | some piece =>
          simp only
          rw [List.append_assoc, List.append_assoc, ih, ← List.append_assoc b]

theorem SQL.run_builder {α : Type} (stmt c : GoString) (args : List (Any α)) (end_ : Int)
    (b : GoString) (out : List (Any α)) :
    SQL.run stmt args end_ (c ++ b) out
      = (SQL.run stmt args end_ b out).map (fun r => (c ++ r.1, r.2)) := by
  unfold SQL.run
  rw [SQL.loop_builder]
  cases SQL.loop stmt args end_ b out with
  | none => rfl
  | some r =>
    obtain ⟨e, b', out'⟩ := r
    simp only [Option.map_some']
    cases sliceFrom stmt e with
    | none => rfl
    | some tail => simp [List.append_assoc]

/-- A text `P` before the whole statement shifts the positions of a run that
starts after `P`, and changes nothing else. -/
theorem SQL.run_shift {α : Type} (P : GoString) (args : List (Any α)) :
    ∀ (pre tail b : GoString) (out : List (Any α)),
      SQL.run (P ++ (pre ++ tail)) args ((P ++ pre).length : Int) b out
        = SQL.run (pre ++ tail) args pre.length b out := by
  induction args with
  | nil =>
    intro pre tail b out
    rw [← List.append_assoc, SQL.run_nil, SQL.run_nil]
  | cons a as ih =>
    intro pre tail b out
    rcases first_marker_split tail with hno | ⟨s0, t, hsplit, h0⟩
    · cases a with
      | expr st sa =>
        rw [← List.append_assoc, SQL.run_step_expr_none _ _ _ _ _ _ _ hno,
          SQL.run_step_expr_none _ _ _ _ _ _ _ hno]
      | lit v =>
        rw [← List.append_assoc, SQL.run_step_lit_none _ _ _ _ _ _ hno,
          SQL.run_step_lit_none _ _ _ _ _ _ hno, List.append_assoc]
        exact ih pre tail b _
    · subst hsplit
      have e1 : (P ++ pre) ++ s0 ++ ['?'] = P ++ (pre ++ s0 ++ ['?']) := by
        simp [List.append_assoc]
      cases a with
      | expr st sa =>
        rw [← List.append_assoc, SQL.run_step_expr _ _ _ _ _ _ _ _ h0,
          SQL.run_step_expr _ _ _ _ _ _ _ _ h0, e1, List.append_assoc]
        exact ih (pre ++ s0 ++ ['?']) t _ _
      | lit v =>
        rw [← List.append_assoc, SQL.run_step_lit _ _ _ _ _ _ _ h0,
          SQL.run_step_lit _ _ _ _ _ _ _ h0, e1, List.append_assoc]
        exact ih (pre ++ s0 ++ ['?']) t _ _

/-- A text `P` without marker before the template: the run of `SQL` from the
start writes `P` and then what it writes for the template alone. -/
theorem SQL.run_comment {α : Type} (P stmt : GoString) (hP : '?' ∉ P)
    (args : List (Any α)) :
    ∀ (b : GoString) (out : List (Any α)),
      SQL.run (P ++ stmt) args 0 b out
        = (SQL.run stmt args 0 [] out).map (fun r => (b ++ P ++ r.1, r.2)) := by
  induction args with
  | nil =>
    intro b out
    have h1 := SQL.run_nil [] (P ++ stmt) b out
    have h2 := SQL.run_nil [] stmt [] out
    simp only [List.nil_append, List.length_nil, Nat.cast_zero] at h1 h2
    rw [h1, h2]
    simp [List.append_assoc]
  | cons a as ih =>
    intro b out
    rcases first_marker_split stmt with hno | ⟨s0, t, hsplit, h0⟩
    · have hno' : '?' ∉ P ++ stmt := by
        intro hm
        rcases List.mem_append.mp hm with h | h
        · exact hP h
        · exact hno h
      cases a with
      | expr st sa =>
        have h1 := SQL.run_step_expr_none [] (P ++ stmt) st sa as b out hno'
        have h2 := SQL.run_step_expr_none [] stmt st sa as [] out hno
        simp only [List.nil_append, List.length_nil, Nat.cast_zero] at h1 h2
        rw [h1, h2]
        rfl
      | lit v =>
        have h1 := SQL.run_step_lit_none [] (P ++ stmt) v as b out hno'
        have h2 := SQL.run_step_lit_none [] stmt v as [] out hno
        simp only [List.nil_append, List.length_nil, Nat.cast_zero] at h1 h2
        rw [h1, h2]
        exact ih b _
    · subst hsplit
      have h0' : '?' ∉ P ++ s0 := by
        intro hm
        rcases List.mem_append.mp hm with h | h
        · exact hP h
        · exact h0 h
      have e0 : P ++ (s0 ++ '?' :: t) = (P ++ s0) ++ '?' :: t := by
        simp [List.append_assoc]
      have e1 : (P ++ s0 ++ ['?']) ++ t = P ++ ((s0 ++ ['?']) ++ t) := by
        simp [List.append_assoc]
      have e2 : P ++ s0 ++ ['?'] = P ++ (s0 ++ ['?']) := by
        simp [List.append_assoc]
      cases a with
      | expr st sa =>
        have h1 := SQL.run_step_expr [] (P ++ s0) t st sa as b out h0'
        have h2 := SQL.run_step_expr [] s0 t st sa as [] out h0
        simp only [List.nil_append, List.length_nil, Nat.cast_zero] at h1 h2
        rw [e0, h1, h2, e1, e2, SQL.run_shift P as (s0 ++ ['?']) t]
        have e3 : b ++ (P ++ s0) ++ st = (b ++ P) ++ (s0 ++ st) := by
          simp [List.append_assoc]
        rw [e3, SQL.run_builder]
      | lit v =>
        have h1 := SQL.run_step_lit [] (P ++ s0) t v as b out h0'
        have h2 := SQL.run_step_lit [] s0 t v as [] out h0
        simp only [List.nil_append, List.length_nil, Nat.cast_zero] at h1 h2
        rw [e0, h1, h2, e1, e2, SQL.run_shift P as (s0 ++ ['?']) t]
        have e3 : b ++ (P ++ (s0 ++ ['?'])) = (b ++ P) ++ (s0 ++ ['?']) := by
          simp [List.append_assoc]
        rw [e3, SQL.run_builder]

theorem SQL_eq_run {α : Type} (stmt : GoString) (args : List (Any α)) :
    SQL stmt args
      = if args.length = 0 then some { Statement := stmt, Args := [] }
        else (SQL.run stmt args 0 [] []).map
          (fun r => ({ Statement := r.1, Args := r.2 } : Expr α)) := by
  unfold SQL SQL.run
  split
  · rfl
  · cases SQL.loop stmt args 0 [] [] with
    | none => rfl
    | some r =>
      obtain ⟨e, b', out'⟩ := r
      simp only
      cases sliceFrom stmt e with
      | none => rfl
      | some tail => rfl

/-- With a text without marker before the template, `SQL` returns what it
returns for the template alone with that text before the statement, and
panics when it panics for the template alone. -/
theorem SQL_comment {α : Type} (P stmt : GoString) (hP : '?' ∉ P) (args : List (Any α)) :
    SQL (P ++ stmt) args = (SQL stmt args).map (Expr.withComment P) := by
  rw [SQL_eq_run, SQL_eq_run]
  split
  · rfl
  · rw [SQL.run_comment P stmt hP args [] []]
    cases SQL.run stmt args 0 [] [] with
    | none => rfl
    | some r => simp [Expr.withComment]

/-! ## `DebugSQL` -/

theorem digitChar_no_marker (d : Nat) (h : d < 10) : Nat.digitChar d ≠ '?' := by
  interval_cases d <;> decide

theorem toDigitsCore_no_marker : ∀ (fuel n : Nat) (ds : List Char), '?' ∉ ds →
    '?' ∉ Nat.toDigitsCore 10 fuel n ds := by
  intro fuel
  induction fuel with
  | zero => intro n ds h; simpa [Nat.toDigitsCore] using h
  | succ fuel ih =>
    intro n ds h
    have hd : '?' ∉ Nat.digitChar (n % 10) :: ds := by
      intro hm
      rcases List.mem_cons.mp hm with h1 | h1
      · exact digitChar_no_marker (n % 10) (Nat.mod_lt _ (by decide)) h1.symm
      · exact h h1
    simp only [Nat.toDigitsCore]
    split
    · exact hd
    · exact ih _ _ hd

theorem repr_no_marker (n : Nat) : '?' ∉ (Nat.repr n).toList := by
  show '?' ∉ Nat.toDigits 10 n
  exact toDigitsCore_no_marker _ _ _ (by simp)

theorem formatInt_no_marker (n : Int) : '?' ∉ formatInt n := by
  unfold formatInt
  cases n with
  | ofNat m => exact repr_no_marker m
  | negSucc m =>
    show '?' ∉ ("-" ++ Nat.repr (m + 1)).toList
    rw [String.toList, String.data_append]
    intro hm
    rcases List.mem_append.mp hm with h | h
    · simp at h
    · exact repr_no_marker _ h

theorem debugComment_no_marker (path : GoString) (line : Int) (h : '?' ∉ path) :
    '?' ∉ debugComment path line := by
  unfold debugComment
  intro hm
  simp only [List.mem_append, List.mem_cons, List.mem_singleton, List.not_mem_nil,
    or_false] at hm
  rcases hm with ((hm | hm) | hm) | hm
  · rcases hm with hm | hm
    · revert hm; decide
    · exact h hm
  · revert hm; decide
  · exact formatInt_no_marker line hm
  · revert hm; decide

theorem indent_single_line (TrimSpace : GoString → GoString) (v : GoString)
    (h : '\n' ∉ v) : indent TrimSpace v = v := by
  simp [indent, strings.Contains, h]

theorem DebugSQL_args_single_line {α : Type} (TrimSpace : GoString → GoString)
    (args : List (Any α)) (hargs : ∀ st sa, Any.expr st sa ∈ args → '\n' ∉ st) :
    args.map (fun arg =>
        match arg with
        | Any.expr subStatement subArgs => Any.expr (indent TrimSpace subStatement) subArgs
        | Any.lit v => Any.lit v)
      = args := by
  induction args with
  | nil => rfl
  | cons a as ih =>
    rw [List.map_cons, ih (fun st sa hm => hargs st sa (by simp [hm]))]
    cases a with
    | lit v => rfl
    | expr st sa =>
      simp only
      rw [indent_single_line TrimSpace st (hargs st sa (by simp))]

/-- C19, as stated, fails.  For the path `a.go`, the line 7, the template `x`
and no argument the text of `DebugSQL` starts with a line feed and has a space
after the comment: it is not the comment followed by the template.  And for
the path `a?.go` the marker of the path takes the sub-fragment. -/
theorem DebugSQL_comment_counterexample :
    (DebugSQL id "a.go".toList 7 "x".toList ([] : List (Any Nat))).map Expr.Statement
        = some "\n/* a.go:7 */ x".toList ∧
      (DebugSQL id "a.go".toList 7 "x".toList ([] : List (Any Nat))).map Expr.Statement
        ≠ (SQL "x".toList ([] : List (Any Nat))).map
            (fun e => "/* a.go:7 */".toList ++ e.Statement) ∧
      (DebugSQL id "a?.go".toList 7 "x (?)".toList
          [(Any.expr "SELECT 1".toList [] : Any Nat)]).map Expr.Statement
        = some "\n/* aSELECT 1.go:7 */ x (?)".toList :=
  ⟨by decide, by decide, by decide⟩

/-- C19, amended: when no sub-fragment among the arguments has a line feed in
its text, then for a path that is not empty and holds no marker `DebugSQL`
returns what `SQL` returns for the template and the arguments, with a line
feed, the comment `/* path:line */` and a space before the text (for no
argument: these and then the template), and panics when `SQL` does; and for
the empty path `DebugSQL` is `SQL`. -/
theorem DebugSQL_comment_format {α : Type} (TrimSpace : GoString → GoString)
    (path : GoString) (line : Int) (stmt : GoString) (args : List (Any α))
    (hargs : ∀ st sa, Any.expr st sa ∈ args → '\n' ∉ st) :
    (path ≠ [] → '?' ∉ path →
        DebugSQL TrimSpace path line stmt args
          = (SQL stmt args).map (Expr.withComment (debugComment path line))) ∧
      (path ≠ [] → '?' ∉ path →
        DebugSQL TrimSpace path line stmt ([] : List (Any α))
          = some { Statement := debugComment path line ++ stmt, Args := [] }) ∧
      (path = [] → DebugSQL TrimSpace path line stmt args = SQL stmt args) := by
  have hsome : ∀ as : List (Any α), (∀ st sa, Any.expr st sa ∈ as → '\n' ∉ st) →
      path ≠ [] → '?' ∉ path →
      DebugSQL TrimSpace path line stmt as
        = (SQL stmt as).map (Expr.withComment (debugComment path line)) := by
    intro as has hne hp
    unfold DebugSQL
    simp only [DebugSQL_args_single_line TrimSpace as has, if_pos hne]
    exact SQL_comment (debugComment path line) stmt (debugComment_no_marker path line hp) as
  refine ⟨hsome args hargs, fun hne hp => ?_, fun he => ?_⟩
  · rw [hsome [] (fun st sa hm => by simp at hm) hne hp]
    rfl
  · unfold DebugSQL
    simp only [DebugSQL_args_single_line TrimSpace args hargs, he, ne_eq, not_true_eq_false,
      if_false]

theorem DebugSQL_comment_format_witness :
    (∀ st sa, Any.expr st sa ∈ [(Any.expr "SELECT 1".toList [] : Any Nat), Any.lit 5] →
        '\n' ∉ st) ∧
      "a.go".toList ≠ [] ∧ '?' ∉ "a.go".toList ∧
      (DebugSQL id "a.go".toList 7 "x (?) ?".toList
          [(Any.expr "SELECT 1".toList [] : Any Nat), Any.lit 5]).map Expr.Statement
        = some "\n/* a.go:7 */ x (SELECT 1) ?".toList ∧
      DebugSQL id "a.go".toList 7 "x (?) ?".toList
          [(Any.expr "SELECT 1".toList [] : Any Nat), Any.lit 5]
        = (SQL "x (?) ?".toList [(Any.expr "SELECT 1".toList [] : Any Nat), Any.lit 5]).map
            (Expr.withComment (debugComment "a.go".toList 7)) ∧
      DebugSQL id [] 7 "x (?) ?".toList
          [(Any.expr "SELECT 1".toList [] : Any Nat), Any.lit 5]
        = SQL "x (?) ?".toList [(Any.expr "SELECT 1".toList [] : Any Nat), Any.lit 5] :=
  have hargs : ∀ st sa,
      Any.expr st sa ∈ [(Any.expr "SELECT 1".toList [] : Any Nat), Any.lit 5] →
        '\n' ∉ st := by
    intro st sa hm
    simp only [List.mem_cons, List.mem_singleton, Any.expr.injEq, List.not_mem_nil,
      or_false, reduceCtorEq] at hm
    rw [hm.1]
    decide
  ⟨hargs, by decide, by decide, by decide,
    (DebugSQL_comment_format id "a.go".toList 7 "x (?) ?".toList
      [(Any.expr "SELECT 1".toList [] : Any Nat), Any.lit 5] hargs).1 (by decide) (by decide),
    (DebugSQL_comment_format id [] 7 "x (?) ?".toList
      [(Any.expr "SELECT 1".toList [] : Any Nat), Any.lit 5] hargs).2.2 rfl⟩

/-! ## `Scan` and `ScanV` -/

/-- C18, as stated, fails: a scan function that keeps the address of the
target of the row before and writes 0 there makes `Scan` return references to
the values 0 and 20 on the rows 10 and 20, while `ScanV` has copied 10 and 20;
the errors and the final states are the same. -/
theorem Scan_ScanV_values_counterexample :
    Scan 0 (exampleRows none none).onMem exampleScanKeeping 5 ⟨([10, 20], 0), []⟩
        = some (([0, 1], none), ⟨([], 20), [0, 20]⟩) ∧
      ScanV 0 (exampleRows none none).onMem (ScanV.viaAddress exampleScanKeeping) 5
          ⟨([10, 20], 0), []⟩
        = some (([10, 20], none), ⟨([], 20), [0, 20]⟩) ∧
      Mem.values 0 (⟨([], 20), [0, 20]⟩ : Mem (List Nat × Nat) Nat) [0, 1] = [0, 20] ∧
      Mem.values 0 (⟨([], 20), [0, 20]⟩ : Mem (List Nat × Nat) Nat) [0, 1] ≠ [10, 20] :=
  ⟨rfl, rfl, rfl, by decide⟩

theorem Mem.pointsTo_step {σ V : Type} (zero : V)
    (scan : Nat → Row (Mem σ V) V → Mem σ V → error × Mem σ V)
    (row : Row (Mem σ V) V) (hk : Scan.keepsEarlier zero row scan) (s : σ) (heap : List V)
    (ptrs : List Nat) (vals : List V)
    (h : Mem.pointsTo zero ({ state := s, heap := heap } : Mem σ V) ptrs vals) :
    Mem.pointsTo zero (scan heap.length row { state := s, heap := heap ++ [zero] }).2
        ptrs vals ∧
      Mem.pointsTo zero (scan heap.length row { state := s, heap := heap ++ [zero] }).2
        (ptrs ++ [heap.length])
        (vals ++ [(scan heap.length row
          { state := s, heap := heap ++ [zero] }).2.heap.getD heap.length zero]) := by
  obtain ⟨hlen, hkeep⟩ := hk heap.length { state := s, heap := heap ++ [zero] }
  obtain ⟨h1, h2⟩ := h
  simp only [List.length_append, List.length_singleton] at hlen
  have hold : ∀ p ∈ ptrs,
      p < (scan heap.length row { state := s, heap := heap ++ [zero] }).2.heap.length :=
    fun p hp => by have := h1 p hp; simp only at this; omega
  have hval : Mem.values zero (scan heap.length row { state := s, heap := heap ++ [zero] }).2
      ptrs = vals := by
    rw [← h2]
    unfold Mem.values
    apply List.map_congr_left
    intro q hq
    have hq' : q < heap.length := h1 q hq
    rw [hkeep q hq']
    exact List.getD_append heap [zero] zero q hq'
  refine ⟨⟨hold, hval⟩, ?_, ?_⟩
  · intro p hp
    rcases List.mem_append.mp hp with hp | hp
    · exact hold p hp
    · simp only [List.mem_singleton] at hp
      omega
  · unfold Mem.values at hval ⊢
    rw [List.map_append, hval]
    rfl

theorem Scan.fn_fst {σ V : Type} (zero : V) (R : Rows (Mem σ V) V)
    (scan : Nat → Row (Mem σ V) V → Mem σ V → error × Mem σ V) (m : Mem σ V)
    (ptrs : List Nat) :
    (Scan.fn zero R scan (m, ptrs)).1
      = (scan m.heap.length R.toRow { state := m.state, heap := m.heap ++ [zero] }).1 := by
  simp only [Scan.fn]
  rcases scan m.heap.length R.toRow { state := m.state, heap := m.heap ++ [zero] } with
    ⟨_ | e, m1⟩ <;> rfl

theorem Scan.fn_snd_none {σ V : Type} (zero : V) (R : Rows (Mem σ V) V)
    (scan : Nat → Row (Mem σ V) V → Mem σ V → error × Mem σ V) (m : Mem σ V)
    (ptrs : List Nat)
    (h : (scan m.heap.length R.toRow { state := m.state, heap := m.heap ++ [zero] }).1 = none) :
    (Scan.fn zero R scan (m, ptrs)).2
      = ((scan m.heap.length R.toRow { state := m.state, heap := m.heap ++ [zero] }).2,
          ptrs ++ [m.heap.length]) := by
  simp only [Scan.fn]
  rcases hs : scan m.heap.length R.toRow { state := m.state, heap := m.heap ++ [zero] } with
    ⟨_ | e, m1⟩
  · rfl
  · rw [hs] at h; cases h

theorem Scan.fn_snd_some {σ V : Type} (zero : V) (R : Rows (Mem σ V) V)
    (scan : Nat → Row (Mem σ V) V → Mem σ V → error × Mem σ V) (m : Mem σ V)
    (ptrs : List Nat) (e : GoError)
    (h : (scan m.heap.length R.toRow { state := m.state, heap := m.heap ++ [zero] }).1
      = some e) :
    (Scan.fn zero R scan (m, ptrs)).2
      = ((scan m.heap.length R.toRow { state := m.state, heap := m.heap ++ [zero] }).2,
          ptrs) := by
  simp only [Scan.fn]
  rcases hs : scan m.heap.length R.toRow { state := m.state, heap := m.heap ++ [zero] } with
    ⟨_ | e', m1⟩
  · rw [hs] at h; cases h
  · rfl

theorem ScanV.fn_viaAddress_fst {σ V : Type} (zero : V) (R : Rows (Mem σ V) V)
    (scan : Nat → Row (Mem σ V) V → Mem σ V → error × Mem σ V) (m : Mem σ V)
    (vals : List V) :
    (ScanV.fn zero R (ScanV.viaAddress scan) (m, vals)).1
      = (scan m.heap.length R.toRow { state := m.state, heap := m.heap ++ [zero] }).1 := by
  simp only [ScanV.fn, ScanV.viaAddress]
  rcases scan m.heap.length R.toRow { state := m.state, heap := m.heap ++ [zero] } with
    ⟨_ | e, m1⟩ <;> rfl

theorem ScanV.fn_viaAddress_snd_none {σ V : Type} (zero : V) (R : Rows (Mem σ V) V)
    (scan : Nat → Row (Mem σ V) V → Mem σ V → error × Mem σ V) (m : Mem σ V)
    (vals : List V)
    (h : (scan m.heap.length R.toRow { state := m.state, heap := m.heap ++ [zero] }).1 = none) :
    (ScanV.fn zero R (ScanV.viaAddress scan) (m, vals)).2
      = ((scan m.heap.length R.toRow { state := m.state, heap := m.heap ++ [zero] }).2,
          vals ++ [(scan m.heap.length R.toRow
            { state := m.state, heap := m.heap ++ [zero] }).2.heap.getD m.heap.length zero]) := by
  simp only [ScanV.fn, ScanV.viaAddress]
  rcases hs : scan m.heap.length R.toRow { state := m.state, heap := m.heap ++ [zero] } with
    ⟨_ | e, m1⟩
  · rfl
  · rw [hs] at h; cases h

theorem ScanV.fn_viaAddress_snd_some {σ V : Type} (zero : V) (R : Rows (Mem σ V) V)
    (scan : Nat → Row (Mem σ V) V → Mem σ V → error × Mem σ V) (m : Mem σ V)
    (vals : List V) (e : GoError)
    (h : (scan m.heap.length R.toRow { state := m.state, heap := m.heap ++ [zero] }).1
      = some e) :
    (ScanV.fn zero R (ScanV.viaAddress scan) (m, vals)).2
      = ((scan m.heap.length R.toRow { state := m.state, heap := m.heap ++ [zero] }).2,
          vals) := by
  simp only [ScanV.fn, ScanV.viaAddress]
  rcases hs : scan m.heap.length R.toRow { state := m.state, heap := m.heap ++ [zero] } with
    ⟨_ | e', m1⟩
  · rw [hs] at h; cases h
  · rfl

/-- The loops of `Scan` and of `ScanV` on the same cursor and the same scan
function go in step: started in the same memory they end, or do not end,
together, with the same error and the same memory; and when `scan` leaves
alone the variables of earlier rows, the addresses collected by `Scan` go on
pointing to the values collected by `ScanV`. -/
theorem Scan.loop_lockstep {σ V : Type} (zero : V) (rows : Rows σ V)
    (scan : Nat → Row (Mem σ V) V → Mem σ V → error × Mem σ V) :
    ∀ (fuel : Nat) (m : Mem σ V) (ptrs : List Nat) (vals : List V),
      (Iter.loop rows.onMem.withRefs (Scan.fn zero rows.onMem scan) fuel (m, ptrs) = none ∧
        Iter.loop rows.onMem.withOut
          (ScanV.fn zero rows.onMem (ScanV.viaAddress scan)) fuel (m, vals) = none) ∨
      ∃ (e : error) (m' : Mem σ V) (ptrs' : List Nat) (vals' : List V),
        Iter.loop rows.onMem.withRefs (Scan.fn zero rows.onMem scan) fuel (m, ptrs)
            = some (e, (m', ptrs')) ∧
          Iter.loop rows.onMem.withOut
              (ScanV.fn zero rows.onMem (ScanV.viaAddress scan)) fuel (m, vals)
            = some (e, (m', vals')) ∧
          (Scan.keepsEarlier zero rows.onMem.toRow scan → Mem.pointsTo zero m ptrs vals →
            Mem.pointsTo zero m' ptrs' vals') := by
  intro fuel
  induction fuel with
  | zero => intro m ptrs vals; left; exact ⟨rfl, rfl⟩
  | succ fuel ih =>
    intro m ptrs vals
    -- the state after `Next` and `Err`, and the call of `scan` in this round
    have hNA : rows.onMem.withRefs.Next (m, ptrs)
        = ((rows.Next m.state).1,
            ({ state := (rows.Next m.state).2, heap := m.heap }, ptrs)) := rfl
    have hNB : rows.onMem.withOut.Next (m, vals)
        = ((rows.Next m.state).1,
            ({ state := (rows.Next m.state).2, heap := m.heap }, vals)) := rfl
    have hEA : Iter.errCheck rows.onMem.withRefs (m, ptrs)
        = ((Iter.errCheck rows m.state).1,
            ({ state := (Iter.errCheck rows m.state).2, heap := m.heap }, ptrs)) := rfl
    have hEB : Iter.errCheck rows.onMem.withOut (m, vals)
        = ((Iter.errCheck rows m.state).1,
            ({ state := (Iter.errCheck rows m.state).2, heap := m.heap }, vals)) := rfl
    have hCA : Iter.callback rows.onMem.withRefs (Scan.fn zero rows.onMem scan) (m, ptrs)
        = Scan.fn zero rows.onMem scan
            ({ state := (Iter.errCheck rows m.state).2, heap := m.heap }, ptrs) := rfl
    have hCB : Iter.callback rows.onMem.withOut
          (ScanV.fn zero rows.onMem (ScanV.viaAddress scan)) (m, vals)
        = ScanV.fn zero rows.onMem (ScanV.viaAddress scan)
            ({ state := (Iter.errCheck rows m.state).2, heap := m.heap }, vals) := rfl
    cases hb : (rows.Next m.state).1 with
    | false =>
      right
      refine ⟨(Iter.errCheck rows m.state).1,
        { state := (Iter.errCheck rows m.state).2, heap := m.heap }, ptrs, vals, ?_, ?_,
        fun _ h => h⟩
      · rw [Iter.loop_exhausted _ _ _ (by rw [hNA]; exact hb), hEA]
      · rw [Iter.loop_exhausted _ _ _ (by rw [hNB]; exact hb), hEB]
    | true =>
      cases he : (Iter.errCheck rows m.state).1 with
      | some e =>
        right
        refine ⟨some e, { state := (Iter.errCheck rows m.state).2, heap := m.heap }, ptrs,
          vals, ?_, ?_, fun _ h => h⟩
        · rw [Iter.loop_errCheck _ _ _ e (by rw [hEA]; exact he), hEA]
        · rw [Iter.loop_errCheck _ _ _ e (by rw [hEB]; exact he), hEB]
      | none =>
        cases hr : (scan m.heap.length rows.onMem.toRow
            { state := (Iter.errCheck rows m.state).2, heap := m.heap ++ [zero] }).1 with
        | some e =>
          right
          refine ⟨some (Errorf "failed to scan rows: " e),
            (scan m.heap.length rows.onMem.toRow
              { state := (Iter.errCheck rows m.state).2, heap := m.heap ++ [zero] }).2,
            ptrs, vals, ?_, ?_, ?_⟩
          · rw [Iter.loop_callback _ _ _ e (by rw [hNA]; exact hb) (by rw [hEA]; exact he)
              (by rw [hCA, Scan.fn_fst]; exact hr), hCA,
              Scan.fn_snd_some zero rows.onMem scan _ ptrs e hr]
          · rw [Iter.loop_callback _ _ _ e (by rw [hNB]; exact hb) (by rw [hEB]; exact he)
              (by rw [hCB, ScanV.fn_viaAddress_fst]; exact hr), hCB,
              ScanV.fn_viaAddress_snd_some zero rows.onMem scan _ vals e hr]
          · intro hk h
            exact (Mem.pointsTo_step zero scan rows.onMem.toRow hk
              (Iter.errCheck rows m.state).2 m.heap ptrs vals h).1
        | none =>
          have hokA : Iter.rowOk rows.onMem.withRefs (Scan.fn zero rows.onMem scan) (m, ptrs) :=
            ⟨by rw [hNA]; exact hb, by rw [hEA]; exact he,
              by rw [hCA, Scan.fn_fst]; exact hr⟩
          have hokB : Iter.rowOk rows.onMem.withOut
              (ScanV.fn zero rows.onMem (ScanV.viaAddress scan)) (m, vals) :=
            ⟨by rw [hNB]; exact hb, by rw [hEB]; exact he,
              by rw [hCB, ScanV.fn_viaAddress_fst]; exact hr⟩
          have hA : Iter.afterRow rows.onMem.withRefs (Scan.fn zero rows.onMem scan) (m, ptrs)
              = ((scan m.heap.length rows.onMem.toRow
                    { state := (Iter.errCheck rows m.state).2, heap := m.heap ++ [zero] }).2,
                  ptrs ++ [m.heap.length]) := by
            unfold Iter.afterRow
            rw [hCA]
            exact Scan.fn_snd_none zero rows.onMem scan _ ptrs hr
          have hB : Iter.afterRow rows.onMem.withOut
                (ScanV.fn zero rows.onMem (ScanV.viaAddress scan)) (m, vals)
              = ((scan m.heap.length rows.onMem.toRow
                    { state := (Iter.errCheck rows m.state).2, heap := m.heap ++ [zero] }).2,
                  vals ++ [(scan m.heap.length rows.onMem.toRow
                    { state := (Iter.errCheck rows m.state).2,
                      heap := m.heap ++ [zero] }).2.heap.getD m.heap.length zero]) := by
            unfold Iter.afterRow
            rw [hCB]
            exact ScanV.fn_viaAddress_snd_none zero rows.onMem scan _ vals hr
          rw [Iter.loop_rowOk _ _ _ hokA, Iter.loop_rowOk _ _ _ hokB, hA, hB]
          rcases ih _ (ptrs ++ [m.heap.length]) (vals ++ [(scan m.heap.length rows.onMem.toRow
              { state := (Iter.errCheck rows m.state).2,
                heap := m.heap ++ [zero] }).2.heap.getD m.heap.length zero]) with
            ⟨h1, h2⟩ | ⟨e, m', ptrs', vals', h1, h2, h3⟩
          · left; exact ⟨h1, h2⟩
          · right
            refine ⟨e, m', ptrs', vals', h1, h2, ?_⟩
            intro hk h
            exact h3 hk (Mem.pointsTo_step zero scan rows.onMem.toRow hk
              (Iter.errCheck rows m.state).2 m.heap ptrs vals h).2

/-- C18, amended: from the same state, for every cursor and every scan
function, `Scan` and `ScanV` end or do not end together and return the same
error and the same final state, so the same calls were made on the cursor;
and when the scan function leaves alone the variables of earlier rows, the
values that the references returned by `Scan` point to are, one by one and in
order, the values that `ScanV` returns. -/
theorem Scan_ScanV_agree {σ V : Type} (zero : V) (rows : Rows σ V)
    (scan : Nat → Row (Mem σ V) V → Mem σ V → error × Mem σ V) (fuel : Nat) (m : Mem σ V) :
    (ScanV zero rows.onMem (ScanV.viaAddress scan) fuel m).map (fun r => (r.1.2, r.2))
        = (Scan zero rows.onMem scan fuel m).map (fun r => (r.1.2, r.2)) ∧
      (Scan.keepsEarlier zero rows.onMem.toRow scan →
        ScanV zero rows.onMem (ScanV.viaAddress scan) fuel m
          = (Scan zero rows.onMem scan fuel m).map
              (fun r => ((Mem.values zero r.2 r.1.1, r.1.2), r.2))) := by
  unfold ScanV Scan Iter
  rcases Scan.loop_lockstep zero rows scan fuel m [] [] with
    ⟨h1, h2⟩ | ⟨e, m', ptrs', vals', h1, h2, h3⟩
  · rw [h1, h2]
    exact ⟨rfl, fun _ => rfl⟩
  · rw [h1, h2]
    obtain ⟨s', heap'⟩ := m'
    simp only [Rows.withRefs, Rows.withOut, Rows.onMem, Option.map_some']
    refine ⟨trivial, fun hk => ?_⟩
    have h := (h3 hk ⟨fun p hp => by simp at hp, rfl⟩).2
    simp only [Mem.values] at h ⊢
    rw [h]

theorem Scan_ScanV_agree_witness :
    Scan.keepsEarlier 0 (exampleRows none none).onMem.toRow exampleScan ∧
      Scan 0 (exampleRows none none).onMem exampleScan 5 ⟨([10, 20], 0), []⟩
        = some (([0, 1], none), ⟨([], 20), [10, 20]⟩) ∧
      ScanV 0 (exampleRows none none).onMem (ScanV.viaAddress exampleScan) 5
          ⟨([10, 20], 0), []⟩
        = (Scan 0 (exampleRows none none).onMem exampleScan 5 ⟨([10, 20], 0), []⟩).map
            (fun r => ((Mem.values 0 r.2 r.1.1, r.1.2), r.2)) :=
  have hk : Scan.keepsEarlier 0 (exampleRows none none).onMem.toRow exampleScan := by
    intro p m
    refine ⟨?_, fun q hq => ?_⟩
    · simp [exampleScan, Rows.onMem, exampleRows]
    · simp [exampleScan, Rows.onMem, exampleRows, List.getD_eq_getElem?_getD,
        List.getElem?_set_ne (Nat.ne_of_gt hq)]
  ⟨hk, rfl,
    (Scan_ScanV_agree 0 (exampleRows none none) exampleScan 5 ⟨([10, 20], 0), []⟩).2 hk⟩

end Sqlh
